import Mathlib

/-!
Shallow embedding of the Mob Hunters arcade game (`src/main.py`) and proofs
about its per-frame game-loop operations: spawning and the live-mob cap,
theme transitions, melee and contact combat, loot and health pickups,
skeleton archery and projectiles, and the pause gate of `Game.update`.

Modelling conventions, used throughout:

* Python machine floats are modelled by `Frac`, an unnormalised rational
  (numerator, positive denominator) with gcd-free arithmetic.  All float
  literals of the source (speeds `1.6`, drop chances `0.10`, the spawn-rate
  factors `0.85`/`0.90`, …) are embedded as the exact rationals they denote.
* Results of `pygame.Vector2.normalize()` are irrational in general; every
  quantity the source derives from a `normalize()` call (movement steps,
  knockback displacements, arrow directions, decayed knockback vectors) is
  taken as an explicit *oracle* argument of the embedded operation, standing
  for the already-rounded value the float code computed.  Likewise every
  `random.*` call is an oracle argument (an index or a rational roll).
* `Vector2.distance_to(a) <= r` comparisons on integer centres are embedded
  as the exact squared-distance comparison `distSq ≤ r²`.
* `pygame.Rect` is integral (x, y, w, h); `colliderect` is the strict
  overlap test of pygame; `center` uses integer halving as in pygame.
* Python lists mutated by `pop(i)` while iterating over a
  `list(enumerate(...))` snapshot are modelled faithfully: the loop walks
  the snapshot while popping positionally from the current list, and an
  out-of-range `pop` produces an `IndexError` result (`PyResult.err`)
  carrying the state at the moment the exception is raised, as the caller
  of `Game.update` observes it (`main` catches the exception).
* Rendering, sprite loading, sound, and the on-screen virtual pad are not
  modelled (they never touch the game state read by the claims); the
  `color`/`image` fields of entities are likewise omitted.
-/

namespace MobHunter

/-- Unnormalised rational numbers standing in for Python floats: numerator
`n`, denominator `d` (kept positive by construction in every operation the
embedding performs). -/
structure Frac where
  n : Int
  d : Int
deriving DecidableEq, Repr

/-- Embed an integer. -/
def Frac.ofInt (x : Int) : Frac := ⟨x, 1⟩

/-- Addition of fractions (no gcd normalisation). -/
def Frac.add (a b : Frac) : Frac := ⟨a.n * b.d + b.n * a.d, a.d * b.d⟩

/-- Subtraction of fractions. -/
def Frac.sub (a b : Frac) : Frac := ⟨a.n * b.d - b.n * a.d, a.d * b.d⟩

/-- Multiplication of fractions. -/
def Frac.mul (a b : Frac) : Frac := ⟨a.n * b.n, a.d * b.d⟩

/-- Boolean `a ≤ b` on fractions with positive denominators. -/
def Frac.ble (a b : Frac) : Bool := a.n * b.d ≤ b.n * a.d

/-- Boolean `a < b` on fractions with positive denominators. -/
def Frac.blt (a b : Frac) : Bool := a.n * b.d < b.n * a.d

/-- Python `int(...)` applied to a float value: truncation toward zero. -/
def pyTrunc (f : Frac) : Int := f.n.tdiv f.d

/-- Python's `clamp` helper from `main.py`: `max(lo, min(hi, v))`. -/
def clamp (v lo hi : Int) : Int := max lo (min hi v)

/-- Lower-case a character sequence, as Python `str.lower()` does on the
ASCII names appearing in this game. -/
def lowerChars (l : List Char) : List Char := l.map Char.toLower

/-- Python's substring test `needle in hay` on character lists. -/
def pyInChars (needle : List Char) : List Char → Bool
  | [] => decide (needle = [])
  | c :: rest => needle.isPrefixOf (c :: rest) || pyInChars needle rest

/-- Arena width (`WIDTH = 1000`). -/
def WIDTH : Int := 1000

/-- Arena height (`HEIGHT = 640`). -/
def HEIGHT : Int := 640

/-- The live-mob spawn cap (`MAX_LIVE_MOBS = 25`). -/
def MAX_LIVE_MOBS : Nat := 25

/-- The live-animal spawn cap (`MAX_ALIVE_ANIMALS = 7`). -/
def MAX_ALIVE_ANIMALS : Nat := 7

/-- An integral `pygame.Rect`: left `x`, top `y`, width `w`, height `h`. -/
structure Rect where
  x : Int
  y : Int
  w : Int
  h : Int
deriving DecidableEq, Repr

/-- Horizontal centre (`rect.centerx = x + w // 2` for the non-negative
widths used here). -/
def Rect.centerx (r : Rect) : Int := r.x + r.w / 2

/-- Vertical centre (`rect.centery`). -/
def Rect.centery (r : Rect) : Int := r.y + r.h / 2

/-- Both centre coordinates. -/
def Rect.center (r : Rect) : Int × Int := (r.centerx, r.centery)

/-- Assignment `rect.center = (cx, cy)` of pygame. -/
def Rect.setCenter (r : Rect) (cx cy : Int) : Rect :=
  { r with x := cx - r.w / 2, y := cy - r.h / 2 }

/-- Translate a rect by an integer displacement. -/
def Rect.shift (r : Rect) (dxy : Int × Int) : Rect :=
  { r with x := r.x + dxy.1, y := r.y + dxy.2 }

/-- `pygame.Rect.colliderect`: strict overlap of the two rectangles. -/
def Rect.collide (a b : Rect) : Bool :=
  a.x < b.x + b.w && a.y < b.y + b.h && a.x + a.w > b.x && a.y + a.h > b.y

/-- Squared Euclidean distance between two integer points. -/
def distSq (p q : Int × Int) : Int :=
  (p.1 - q.1) ^ 2 + (p.2 - q.2) ^ 2

/-- A weapon (`@dataclass Weapon`). -/
structure Weapon where
  name : String
  dmg : Int
  range_px : Int
  cooldown_ms : Int
deriving DecidableEq, Repr

/-- The starting sword. -/
def SWORD : Weapon := ⟨"Sword", 28, 85, 280⟩

/-- The elite drop sword. -/
def ELITE_SWORD : Weapon := ⟨"Diamond Sword", 36, 95, 260⟩

/-- The boss drop sword. -/
def BOSS_LOOT : Weapon := ⟨"End Sword", 50, 110, 240⟩

/-- A hostile creature kind (`@dataclass MobKind`); speeds are the exact
rationals the source's float literals denote. -/
structure MobKind where
  name : String
  hp : Int
  speed : Frac
  score : Int
  color_key : String
  contact_dmg : Int
deriving DecidableEq, Repr

/-- The Overworld spawn pool `MOB_KINDS_OVER`. -/
def MOB_KINDS_OVER : List MobKind :=
  [⟨"Zombie Chicken Jockey", 50, ⟨8, 5⟩, 18, "mob", 9⟩,
   ⟨"Skeleton Spider Jockey", 65, ⟨9, 5⟩, 24, "elite", 10⟩,
   ⟨"Zombie", 45, ⟨7, 5⟩, 12, "mob", 8⟩,
   ⟨"Skeleton", 42, ⟨8, 5⟩, 14, "mob", 9⟩,
   ⟨"Spider", 36, ⟨2, 1⟩, 16, "mob", 8⟩,
   ⟨"Pigman", 60, ⟨17, 10⟩, 20, "elite", 11⟩]

/-- The Nether spawn pool `MOB_KINDS_NETH`. -/
def MOB_KINDS_NETH : List MobKind :=
  [⟨"Wither Skeleton", 90, ⟨19, 10⟩, 26, "elite", 12⟩,
   ⟨"Blaze", 80, ⟨9, 5⟩, 24, "elite", 11⟩,
   ⟨"Ghast (mini)", 75, ⟨6, 5⟩, 30, "elite", 12⟩]

/-- The End boss kind `BOSS_ENDER`. -/
def BOSS_ENDER : MobKind :=
  ⟨"Ender Dragon (tiny)", 400, ⟨7, 5⟩, 250, "boss", 16⟩

/-- A peaceful creature kind (`@dataclass AnimalKind`); the rendering-only
`color` field is omitted. -/
structure AnimalKind where
  name : String
  hp : Int
  speed : Frac
  heal_amount : Int
deriving DecidableEq, Repr

/-- The animal kinds `ANIMALS`. -/
def ANIMALS : List AnimalKind :=
  [⟨"Chicken", 20, ⟨8, 5⟩, 15⟩,
   ⟨"Pig", 35, ⟨6, 5⟩, 25⟩,
   ⟨"Cow", 50, ⟨1, 1⟩, 35⟩]

/-- The three arena themes. -/
inductive Theme where
  | OVERWORLD
  | NETHER
  | END
deriving DecidableEq, Repr

/-- The player (`class Player`); the rendering fields are omitted and the
float fields are `Frac`. -/
structure Player where
  rect : Rect
  max_hp : Int
  hp : Int
  spd : Frac
  dash_spd : Frac
  weapon : Weapon
  last_attack : Int
  score : Int
  alive : Bool
  slash_timer : Frac
  slash_radius : Int
deriving DecidableEq, Repr

/-- The player as built by `Player.__init__(x, y, color)`. -/
def mkPlayer (x y : Int) : Player :=
  { rect := ⟨x, y, 26, 26⟩
    max_hp := 100
    hp := 100
    spd := ⟨16, 5⟩
    dash_spd := ⟨11, 2⟩
    weapon := SWORD
    last_attack := 0
    score := 0
    alive := true
    slash_timer := Frac.ofInt 0
    slash_radius := 0 }

/-- A hostile mob (`class Mob`). -/
structure Mob where
  kind : MobKind
  rect : Rect
  hp : Int
  max_hp : Int
  alive : Bool
  knockback : Frac × Frac
  is_archer : Bool
  shots_left : Int
  last_shot_time : Int
  shot_cooldown_ms : Int
  shot_range : Int
deriving DecidableEq, Repr

/-- A mob as built by `Mob.__init__(kind, x, y)`; `is_archer` is the
case-insensitive substring test `"skeleton" in kind.name.lower()`. -/
def mkMob (kind : MobKind) (x y : Int) : Mob :=
  { kind := kind
    rect := ⟨x, y, 24, 24⟩
    hp := kind.hp
    max_hp := kind.hp
    alive := true
    knockback := (Frac.ofInt 0, Frac.ofInt 0)
    is_archer := pyInChars "skeleton".toList (lowerChars kind.name.toList)
    shots_left := if pyInChars "skeleton".toList (lowerChars kind.name.toList) then 3 else 0
    last_shot_time := 0
    shot_cooldown_ms := 950
    shot_range := 380 }

/-- A peaceful animal (`class Animal`); its wander direction (a normalised
float vector in the source) and direction-change timer are `Frac` data. -/
structure Animal where
  kind : AnimalKind
  rect : Rect
  hp : Int
  max_hp : Int
  alive : Bool
  dir : Frac × Frac
  change_dir_timer : Frac
deriving DecidableEq, Repr

/-- An animal as built by `Animal.__init__(kind, x, y)`; the initial random
normalised direction and random timer are oracle arguments. -/
def mkAnimal (kind : AnimalKind) (x y : Int) (dir0 : Frac × Frac) (timer0 : Int) : Animal :=
  { kind := kind
    rect := ⟨x, y, 22, 22⟩
    hp := kind.hp
    max_hp := kind.hp
    alive := true
    dir := dir0
    change_dir_timer := Frac.ofInt timer0 }

/-- A skeleton arrow (`class Arrow`); `pos`/`vel` are float vectors in the
source, embedded as `Frac` pairs. -/
structure Arrow where
  posx : Frac
  posy : Frac
  velx : Frac
  vely : Frac
  rect : Rect
  dmg : Int
  alive : Bool
  ttl_ms : Int
deriving DecidableEq, Repr

/-- An arrow as built by `Arrow.__init__(x, y, vx, vy, dmg)`. -/
def mkArrow (x y vx vy : Frac) (dmg : Int) : Arrow :=
  { posx := x
    posy := y
    velx := vx
    vely := vy
    rect := ⟨pyTrunc x - 3, pyTrunc y - 3, 6, 6⟩
    dmg := dmg
    alive := true
    ttl_ms := 3500 }

/-- `Arrow.update(dt_ms)`: advance the position by the velocity, re-centre
the rect, expire on ttl, and kill the arrow once fully off screen. -/
def Arrow.update (a : Arrow) (dt_ms : Int) : Arrow :=
  if a.alive = false then a
  else
    let px := a.posx.add a.velx
    let py := a.posy.add a.vely
    let r := a.rect.setCenter (pyTrunc px) (pyTrunc py)
    let ttl := a.ttl_ms - dt_ms
    let alive1 := if ttl ≤ 0 then false else true
    let alive2 :=
      if r.x + r.w < 0 || r.x > WIDTH || r.y + r.h < 0 || r.y > HEIGHT then false
      else alive1
    { a with posx := px, posy := py, rect := r, ttl_ms := ttl, alive := alive2 }

/-- The full game state of `class Game` (screen/clock/vpad and other
rendering members omitted; the portal rects are constants, below). -/
structure GameState where
  theme : Theme
  prev_theme : Theme
  spawn_timer : Int
  spawn_interval_ms : Int
  animal_spawn_timer : Int
  animal_spawn_interval_ms : Int
  p1 : Player
  mobs : List Mob
  animals : List Animal
  weapon_drops : List (Rect × Weapon)
  health_packs : List (Rect × Int)
  projectiles : List Arrow
  paused : Bool
  round_over : Bool
  end_boss_alive : Bool
deriving DecidableEq, Repr

/-- The Nether portal rect `self.portal_n`. -/
def portal_n : Rect := ⟨10, 70, 26, 120⟩

/-- The End portal rect `self.portal_e` (`WIDTH - 36 = 964`). -/
def portal_e : Rect := ⟨964, 70, 26, 120⟩

/-- The state `Game.__init__` builds. -/
def gameInit : GameState :=
  { theme := Theme.OVERWORLD
    prev_theme := Theme.OVERWORLD
    spawn_timer := 0
    spawn_interval_ms := 1000
    animal_spawn_timer := 0
    animal_spawn_interval_ms := 3500
    p1 := mkPlayer (WIDTH / 2 - 20) (HEIGHT / 2)
    mobs := []
    animals := []
    weapon_drops := []
    health_packs := []
    projectiles := []
    paused := false
    round_over := false
    end_boss_alive := false }

/-- `Game.live_mob_count`: the number of mobs with `alive = True`. -/
def live_mob_count (g : GameState) : Nat :=
  g.mobs.countP (fun m => m.alive)

/-- `Game.current_pool`: the spawnable kinds for the current theme.  The
`random.choice(MOB_KINDS_OVER)` of the Nether branch is the oracle index
`r` (reduced mod the pool size).  Note the fall-through: the End theme
reuses `MOB_KINDS_OVER`. -/
def current_pool (g : GameState) (r : Nat) : List MobKind :=
  if g.theme = Theme.OVERWORLD then MOB_KINDS_OVER
  else if g.theme = Theme.NETHER then
    MOB_KINDS_NETH ++ [MOB_KINDS_OVER.getD (r % MOB_KINDS_OVER.length) BOSS_ENDER]
  else MOB_KINDS_OVER

/-- Oracle data for one `Game.spawn_mob` call: the Nether pool choice, the
kind choice, the side choice, and the raw value behind `random.randint`. -/
structure SpawnOracle where
  poolR : Nat
  kindR : Nat
  sideR : Nat
  posR : Nat
deriving Repr

/-- The random border position of `Game.spawn_mob`: a side drawn from
`["top", "bottom", "left", "right"]` and the matching `random.randint`
coordinates. -/
def spawnSideXY (o : SpawnOracle) : Int × Int :=
  let side := o.sideR % 4
  if side = 0 then (40 + (o.posR % 921 : Nat), 72)
  else if side = 1 then (40 + (o.posR % 921 : Nat), HEIGHT - 40)
  else if side = 2 then (40, 80 + (o.posR % 521 : Nat))
  else (WIDTH - 60, 80 + (o.posR % 521 : Nat))

/-- `Game.spawn_mob`: refuse when the live-mob cap is reached, otherwise
append a freshly built mob of a kind chosen from `current_pool()` at a
random position on the chosen border side. -/
def spawn_mob (g : GameState) (o : SpawnOracle) : GameState :=
  if MAX_LIVE_MOBS ≤ live_mob_count g then g
  else
    let pool := current_pool g o.poolR
    let kind := pool.getD (o.kindR % pool.length) BOSS_ENDER
    let xy := spawnSideXY o
    { g with mobs := g.mobs ++ [mkMob kind xy.1 xy.2] }

/-- Oracle data for one `Game.spawn_animal` call. -/
structure AnimalSpawnOracle where
  kindR : Nat
  xR : Nat
  yR : Nat
  dir0 : Frac × Frac
  timerR : Nat
deriving Repr

/-- `Game.spawn_animal`: refuse when the live-animal cap is reached,
otherwise append a freshly built animal at a random interior position. -/
def spawn_animal (g : GameState) (o : AnimalSpawnOracle) : GameState :=
  if MAX_ALIVE_ANIMALS ≤ g.animals.countP (fun a => a.alive) then g
  else
    let kind := ANIMALS.getD (o.kindR % ANIMALS.length) ⟨"", 0, Frac.ofInt 0, 0⟩
    let x : Int := 60 + (o.xR % 861 : Nat)
    let y : Int := 100 + (o.yR % 461 : Nat)
    { g with animals := g.animals ++ [mkAnimal kind x y o.dir0 (900 + (o.timerR % 901 : Nat))] }

/-- The boss mob `Game.spawn_boss` builds: a `BOSS_ENDER` mob at
`(WIDTH//2 - 80, 120)` whose rect is then resized to 64×64. -/
def bossEnderMob : Mob :=
  { mkMob BOSS_ENDER (WIDTH / 2 - 80) 120 with
      rect := ⟨WIDTH / 2 - 80, 120, 64, 64⟩ }

/-- `Game.spawn_boss`: set `end_boss_alive` and append the boss mob —
with no check of the live-mob cap. -/
def spawn_boss (g : GameState) : GameState :=
  { g with end_boss_alive := true, mobs := g.mobs ++ [bossEnderMob] }

/-- Filter dropping every mob whose kind is the boss colour class, as in
`[m for m in self.mobs if m.kind.color_key != "boss"]`. -/
def dropBosses (mobs : List Mob) : List Mob :=
  mobs.filter (fun m => m.kind.color_key ≠ "boss")

/-- `Game._handle_theme_transitions`: on a theme change, leaving the End
removes boss mobs and clears `end_boss_alive`; entering the End removes
boss mobs and respawns the boss; `prev_theme` is then synchronised. -/
def handle_theme_transitions (g : GameState) : GameState :=
  if g.theme ≠ g.prev_theme then
    let g1 :=
      if g.prev_theme = Theme.END ∧ g.theme ≠ Theme.END then
        { g with end_boss_alive := false, mobs := dropBosses g.mobs }
      else g
    let g2 :=
      if g1.theme = Theme.END then
        spawn_boss { g1 with end_boss_alive := false, mobs := dropBosses g1.mobs }
      else g1
    { g2 with prev_theme := g2.theme }
  else g

/-- Negation of a fraction. -/
def Frac.neg (a : Frac) : Frac := ⟨-a.n, a.d⟩

/-- The snapshot `list(enumerate(l))`, with indices starting at `n`. -/
def enumFrom {α : Type} (n : Nat) : List α → List (Nat × α)
  | [] => []
  | a :: l => (n, a) :: enumFrom (n + 1) l

/-- Python `list.pop(i)`: the removed element and the remaining list, or
`none` when `i` is out of range (an `IndexError`). -/
def popIdx {α : Type} : List α → Nat → Option (α × List α)
  | [], _ => none
  | a :: l, 0 => some (a, l)
  | a :: l, n + 1 =>
    match popIdx l n with
    | none => none
    | some pr => some (pr.1, a :: pr.2)

/-- Outcome of an operation that can raise an `IndexError`: either a normal
result or the state at the moment the exception was raised (the caller of
`Game.update` catches the exception, so that state persists). -/
inductive PyResult (α : Type) where
  | ok (s : α)
  | err (s : α)
deriving DecidableEq, Repr

/-- The carried state, for a normal and for an exceptional outcome alike. -/
def PyResult.stateOf {α : Type} : PyResult α → α
  | PyResult.ok s => s
  | PyResult.err s => s

/-- Whether the operation raised. -/
def PyResult.isErr {α : Type} : PyResult α → Bool
  | PyResult.ok _ => false
  | PyResult.err _ => true

/-- The shared loop shape of `Game.try_pick_health` and the weapon-drop
scan in `Game.update`: walk a `list(enumerate(...))` snapshot, and for each
entry whose item satisfies `p` (a test the effect never invalidates in
either instance), apply `eff` to the accumulator and `pop` the entry's
original index from the current list. -/
def popLoop {α σ : Type} (p : α → Bool) (eff : α → σ → σ) :
    List (Nat × α) → List α → σ → PyResult (σ × List α)
  | [], cur, s => PyResult.ok (s, cur)
  | e :: rest, cur, s =>
    if p e.2 then
      let s1 := eff e.2 s
      match popIdx cur e.1 with
      | none => PyResult.err (s1, cur)
      | some pr => popLoop p eff rest pr.2 s1
    else popLoop p eff rest cur s

/-- `Game.apply_damage` specialised to the player target: deduct hp, apply
the knockback displacement `kb` (the oracle for the rounded
`normalize() * 4.2` vector), and clear `alive` at hp ≤ 0. -/
def apply_damage_player (p : Player) (dmg : Int) (kb : Int × Int) : Player :=
  if p.alive = false then p
  else
    let p1 := { p with hp := p.hp - dmg, rect := p.rect.shift kb }
    if p1.hp ≤ 0 then { p1 with alive := false } else p1

/-- `Game.apply_damage` specialised to a mob target; the returned flag is
the updated `end_boss_alive` (cleared when a boss mob dies). -/
def apply_damage_mob (endAlive : Bool) (m : Mob) (dmg : Int) (kb : Int × Int) :
    Mob × Bool :=
  if m.alive = false then (m, endAlive)
  else
    let m1 := { m with hp := m.hp - dmg, rect := m.rect.shift kb }
    if m1.hp ≤ 0 then
      ({ m1 with alive := false }, if m1.kind.color_key = "boss" then false else endAlive)
    else (m1, endAlive)

/-- `Game.apply_damage` specialised to an animal target. -/
def apply_damage_animal (a : Animal) (dmg : Int) (kb : Int × Int) : Animal :=
  if a.alive = false then a
  else
    let a1 := { a with hp := a.hp - dmg, rect := a.rect.shift kb }
    if a1.hp ≤ 0 then { a1 with alive := false } else a1

/-- `Game.mobs_damage_p1_on_touch(m)`: a live mob overlapping the live
player damages it by `contact_dmg`; on hp ≤ 0 the player dies and the
round ends. -/
def mobs_damage_p1_on_touch (g : GameState) (m : Mob) (kb : Int × Int) : GameState :=
  if (m.alive && g.p1.alive) = false then g
  else if m.rect.collide g.p1.rect then
    let p1 := apply_damage_player g.p1 m.kind.contact_dmg kb
    if p1.hp ≤ 0 then { g with p1 := { p1 with alive := false }, round_over := true }
    else { g with p1 := p1 }
  else g

/-- The range test of `Player.try_attack` for one target rect:
`center.distance_to(r.center) <= weapon.range_px`, embedded as the exact
squared comparison. -/
def meleeHit (p : Player) (r : Rect) : Bool :=
  distSq p.rect.center r.center ≤ p.weapon.range_px ^ 2

/-- Accumulator of the mob half of the `hunter_melee` hit loop. -/
structure MeleeMobAcc where
  mobs : List Mob
  drops : List (Rect × Weapon)
  scoreDelta : Int
  end_boss_alive : Bool

/-- One mob of the `hunter_melee` hit loop (the loop body of
`for idx in hits_idx` for a `Mob` object): damage it, and on a kill add
score and roll a weapon drop (boss kills always drop `BOSS_LOOT`).
Knockback and `random.random()` oracles are indexed by the mob's position
in `Game.mobs`. -/
def meleeMobStep (p : Player) (kb : Nat → Int × Int) (roll : Nat → Frac)
    (acc : MeleeMobAcc) (jm : Nat × Mob) : MeleeMobAcc :=
  let j := jm.1
  let m := jm.2
  if m.alive && meleeHit p m.rect then
    let r := apply_damage_mob acc.end_boss_alive m p.weapon.dmg (kb j)
    let m1 := r.1
    if m1.alive = false then
      let drops1 :=
        if m1.kind.color_key ≠ "boss" then
          if (roll j).blt (if m1.kind.color_key = "elite" then ⟨1, 10⟩ else ⟨1, 20⟩) then
            acc.drops ++ [(⟨m1.rect.centerx - 8, m1.rect.centery - 8, 16, 16⟩, ELITE_SWORD)]
          else acc.drops
        else
          acc.drops ++ [(⟨m1.rect.centerx - 10, m1.rect.centery - 10, 20, 20⟩, BOSS_LOOT)]
      { mobs := acc.mobs ++ [m1], drops := drops1,
        scoreDelta := acc.scoreDelta + m1.kind.score, end_boss_alive := r.2 }
    else { acc with mobs := acc.mobs ++ [m1], end_boss_alive := r.2 }
  else { acc with mobs := acc.mobs ++ [jm.2] }

/-- Accumulator of the animal half of the `hunter_melee` hit loop. -/
structure MeleeAnimalAcc where
  animals : List Animal
  packs : List (Rect × Int)

/-- One animal of the `hunter_melee` hit loop: damage it, and on a kill
append a health pack carrying `kind.heal_amount` at the animal's (post
knockback) position. -/
def meleeAnimalStep (p : Player) (kb : Nat → Int × Int)
    (acc : MeleeAnimalAcc) (ja : Nat × Animal) : MeleeAnimalAcc :=
  let j := ja.1
  let a := ja.2
  if a.alive && meleeHit p a.rect then
    let a1 := apply_damage_animal a p.weapon.dmg (kb j)
    if a1.alive = false then
      { animals := acc.animals ++ [a1],
        packs := acc.packs ++ [(⟨a1.rect.centerx - 8, a1.rect.centery - 8, 18, 18⟩,
                               a.kind.heal_amount)] }
    else { acc with animals := acc.animals ++ [a1] }
  else { acc with animals := acc.animals ++ [ja.2] }

/-- `Game.hunter_melee`: `Player.try_attack` first rejects on cooldown and
otherwise reports every live mob or animal in weapon range (live mobs
first, then live animals — processing them in list order is equivalent to
walking `hits_idx`).  When at least one target is hit the attack timestamp
and slash state are set, each hit target takes weapon damage, kills add
score / weapon drops / health packs, and a dead boss clears
`end_boss_alive`. -/
def hunter_melee (g : GameState) (now : Int) (kbM kbA : Nat → Int × Int)
    (roll : Nat → Frac) : GameState :=
  if now - g.p1.last_attack < g.p1.weapon.cooldown_ms then g
  else if (g.mobs.any (fun m => m.alive && meleeHit g.p1 m.rect) ||
           g.animals.any (fun a => a.alive && meleeHit g.p1 a.rect)) = false then g
  else
    let p0 := { g.p1 with last_attack := now, slash_timer := Frac.ofInt 120,
                          slash_radius := g.p1.weapon.range_px }
    let accM := (enumFrom 0 g.mobs).foldl (meleeMobStep g.p1 kbM roll)
      ⟨[], [], 0, g.end_boss_alive⟩
    let accA := (enumFrom 0 g.animals).foldl (meleeAnimalStep g.p1 kbA) ⟨[], []⟩
    { g with p1 := { p0 with score := p0.score + accM.scoreDelta },
             mobs := accM.mobs,
             animals := accA.animals,
             weapon_drops := g.weapon_drops ++ accM.drops,
             health_packs := g.health_packs ++ accA.packs,
             end_boss_alive := accM.end_boss_alive }

/-- `Game.try_pick_health(who)`: walk a snapshot of `health_packs`; every
pack the live player overlaps heals `clamp(hp + amount, 0, max_hp)` and is
popped at its snapshot index. -/
def try_pick_health (packs : List (Rect × Int)) (who : Player) :
    PyResult (Player × List (Rect × Int)) :=
  popLoop (fun e => who.alive && who.rect.collide e.1)
    (fun e w => { w with hp := clamp (w.hp + e.2) 0 w.max_hp })
    (enumFrom 0 packs) packs who

/-- The weapon-drop scan of `Game.update`: every drop the player's rect
overlaps sets the player's weapon to the drop's weapon (unconditionally)
and is popped at its snapshot index. -/
def weapon_drops_loop (drops : List (Rect × Weapon)) (p : Player) :
    PyResult (Player × List (Rect × Weapon)) :=
  popLoop (fun d => p.rect.collide d.1)
    (fun d w => { w with weapon := d.2 })
    (enumFrom 0 drops) drops p

/-- `Game.try_skeleton_shoot(m, now_ms)`: an archer with shots left fires
at the live player when within `shot_range` and past the shot cooldown,
spending one shot and appending a damage-12 arrow from its centre.  The
normalised, ×5 direction vector is the oracle `dir`. -/
def try_skeleton_shoot (g : GameState) (m : Mob) (now : Int)
    (dir : Frac × Frac) : Mob × GameState :=
  if (m.is_archer && decide (0 < m.shots_left) && g.p1.alive) = false then (m, g)
  else if m.shot_range ^ 2 < distSq m.rect.center g.p1.rect.center then (m, g)
  else if now - m.last_shot_time < m.shot_cooldown_ms then (m, g)
  else
    let m1 := { m with last_shot_time := now, shots_left := m.shots_left - 1 }
    let arrow := mkArrow (Frac.ofInt m.rect.centerx) (Frac.ofInt m.rect.centery)
      dir.1 dir.2 12
    (m1, { g with projectiles := g.projectiles ++ [arrow] })

/-- State threaded through the `Game.update_projectiles` loop: the current
`projectiles` list tagged with the identities of its (shared, mutable)
`Arrow` objects — the tag is the object's index in the pre-loop snapshot —
plus the player and the round flag. -/
structure ProjState where
  cur : List (Nat × Arrow)
  p1 : Player
  round_over : Bool
deriving DecidableEq, Repr

/-- Writing a mutated arrow object back through its identity: the object
tagged `i` takes the new value wherever it still sits in the list. -/
def replaceId (cur : List (Nat × Arrow)) (i : Nat) (a : Arrow) :
    List (Nat × Arrow) :=
  cur.map (fun e => if e.1 = i then (i, a) else e)

/-- The loop of `Game.update_projectiles` over its
`list(enumerate(self.projectiles))` snapshot.  Each snapshot entry holds
the object's original index `i`, used both as the object identity and as
the (possibly stale) argument of `pop`.  Dead arrows are popped; live ones
are advanced (`Arrow.update`, a mutation of the shared object); a
newly-dead arrow is popped; an arrow overlapping the live player damages
it (`apply_damage` with knockback oracle `kb i`), is marked dead and
popped, and a lethal hit ends the round — but only after the `pop`, so a
raising `pop` leaves `round_over` unset. -/
def projLoop (dt : Int) (kb : Nat → Int × Int) :
    List (Nat × Arrow) → ProjState → PyResult ProjState
  | [], s => PyResult.ok s
  | e :: rest, s =>
    let i := e.1
    let pr := e.2
    if pr.alive = false then
      match popIdx s.cur i with
      | none => PyResult.err s
      | some c => projLoop dt kb rest { s with cur := c.2 }
    else
      let a1 := pr.update dt
      let s1 := { s with cur := replaceId s.cur i a1 }
      if a1.alive = false then
        match popIdx s1.cur i with
        | none => PyResult.err s1
        | some c => projLoop dt kb rest { s1 with cur := c.2 }
      else if s1.p1.alive && a1.rect.collide s1.p1.rect then
        let p2 := apply_damage_player s1.p1 a1.dmg (kb i)
        let a2 := { a1 with alive := false }
        let s2 := { s1 with p1 := p2, cur := replaceId s1.cur i a2 }
        match popIdx s2.cur i with
        | none => PyResult.err s2
        | some c =>
          projLoop dt kb rest
            { s2 with cur := c.2,
                      round_over := if p2.hp ≤ 0 then true else s2.round_over }
      else projLoop dt kb rest s1

/-- `Game.update_projectiles(dt)` on the full game state. -/
def update_projectiles (g : GameState) (dt : Int) (kb : Nat → Int × Int) :
    PyResult GameState :=
  let snap := enumFrom 0 g.projectiles
  match projLoop dt kb snap ⟨snap, g.p1, g.round_over⟩ with
  | PyResult.ok s =>
    PyResult.ok { g with projectiles := s.cur.map (fun e => e.2),
                         p1 := s.p1, round_over := s.round_over }
  | PyResult.err s =>
    PyResult.err { g with projectiles := s.cur.map (fun e => e.2),
                          p1 := s.p1, round_over := s.round_over }

/-- `Player.move(dx, dy, dash)`: the rounded, speed-scaled movement vector
is the oracle `disp`; the rect is clamped to the arena and the slash timer
decays by `1000 / FPS`. -/
def Player.move (p : Player) (disp : Int × Int) : Player :=
  if p.alive = false then p
  else
    let x := clamp (p.rect.x + disp.1) 4 (WIDTH - 4 - p.rect.w)
    let y := clamp (p.rect.y + disp.2) 64 (HEIGHT - 4 - p.rect.h)
    let st :=
      if (Frac.ofInt 0).blt p.slash_timer then
        let t := p.slash_timer.sub ⟨1000, 60⟩
        if t.blt (Frac.ofInt 0) then Frac.ofInt 0 else t
      else p.slash_timer
    { p with rect := { p.rect with x := x, y := y }, slash_timer := st }

/-- `Mob.ai(target_pos)`: the rounded chase-plus-knockback step is the
oracle `disp` and the decayed knockback vector the oracle `kb1`; the rect
is clamped to the arena. -/
def Mob.ai (m : Mob) (_target : Int × Int) (disp : Int × Int)
    (kb1 : Frac × Frac) : Mob :=
  if m.alive = false then m
  else
    let x := clamp (m.rect.x + disp.1) 4 (WIDTH - 4 - m.rect.w)
    let y := clamp (m.rect.y + disp.2) 64 (HEIGHT - 4 - m.rect.h)
    { m with rect := { m.rect with x := x, y := y }, knockback := kb1 }

/-- `Animal.ai()`: tick the direction-change timer (re-rolling direction
and timer from the oracles when it runs out), wander by the truncated
`dir * speed` step, bounce the direction off the walls, and clamp the rect
to the arena. -/
def Animal.ai (a : Animal) (newDir : Frac × Frac) (timerR : Nat) : Animal :=
  if a.alive = false then a
  else
    let t := a.change_dir_timer.sub ⟨1000, 60⟩
    let expired := t.ble (Frac.ofInt 0)
    let dir0 := if expired then newDir else a.dir
    let timer1 := if expired then Frac.ofInt (900 + (timerR % 901 : Nat)) else t
    let dx := pyTrunc (dir0.1.mul a.kind.speed)
    let dy := pyTrunc (dir0.2.mul a.kind.speed)
    let r1 := a.rect.shift (dx, dy)
    let dirx := if r1.x ≤ 4 ∨ WIDTH - 4 ≤ r1.x + r1.w then dir0.1.neg else dir0.1
    let diry := if r1.y ≤ 64 ∨ HEIGHT - 4 ≤ r1.y + r1.h then dir0.2.neg else dir0.2
    let x := clamp r1.x 4 (WIDTH - 4 - r1.w)
    let y := clamp r1.y 64 (HEIGHT - 4 - r1.h)
    { a with rect := { r1 with x := x, y := y }, dir := (dirx, diry),
             change_dir_timer := timer1 }

/-- Oracle data for one `Game.update(dt)` frame: every random draw and
every rounded float vector the frame consumes. -/
structure FrameOracle where
  moveDisp : Int × Int
  attackInput : Bool
  nowAttack : Int
  meleeKbMob : Nat → Int × Int
  meleeKbAnimal : Nat → Int × Int
  dropRoll : Nat → Frac
  spawn : SpawnOracle
  animalSpawn : AnimalSpawnOracle
  nowAi : Int
  aiDisp : Nat → Int × Int
  aiKb : Nat → Frac × Frac
  touchKb : Nat → Int × Int
  shootDir : Nat → Frac × Frac
  animalDir : Nat → Frac × Frac
  animalTimerR : Nat → Nat
  projKb : Nat → Int × Int

/-- The portal checks of `Game.update`: touching the left portal selects
the Nether, touching the right portal the End. -/
def portalsPhase (g : GameState) : GameState :=
  let g1 := if g.p1.rect.collide portal_n then { g with theme := Theme.NETHER } else g
  if g1.p1.rect.collide portal_e then { g1 with theme := Theme.END } else g1

/-- The effective mob-spawn interval of `Game.update`: the base interval,
sped up in the Nether (`int(interval * 0.85)`) and in the End
(`int(interval * 0.90)`). -/
def adjustedInterval (g : GameState) : Int :=
  if g.theme = Theme.NETHER then pyTrunc ((Frac.ofInt g.spawn_interval_ms).mul ⟨17, 20⟩)
  else if g.theme = Theme.END then pyTrunc ((Frac.ofInt g.spawn_interval_ms).mul ⟨9, 10⟩)
  else g.spawn_interval_ms

/-- The spawn-timer section of `Game.update`: advance both timers by `dt`
and fire `spawn_mob` / `spawn_animal` when they cross their intervals. -/
def spawnsPhase (g : GameState) (dt : Int) (o : FrameOracle) : GameState :=
  let g1 := { g with spawn_timer := g.spawn_timer + dt }
  let g2 :=
    if adjustedInterval g1 ≤ g1.spawn_timer then spawn_mob { g1 with spawn_timer := 0 } o.spawn
    else g1
  let g3 := { g2 with animal_spawn_timer := g2.animal_spawn_timer + dt }
  if g3.animal_spawn_interval_ms ≤ g3.animal_spawn_timer then
    spawn_animal { g3 with animal_spawn_timer := 0 } o.animalSpawn
  else g3

/-- One mob of the mob-AI loop of `Game.update`: a live mob chases the
player, applies contact damage, and tries a skeleton shot. -/
def mobsPhaseStep (now : Int) (o : FrameOracle) (st : GameState × List Mob)
    (jm : Nat × Mob) : GameState × List Mob :=
  if jm.2.alive = false then (st.1, st.2 ++ [jm.2])
  else
    let m1 := Mob.ai jm.2 st.1.p1.rect.center (o.aiDisp jm.1) (o.aiKb jm.1)
    let g1 := mobs_damage_p1_on_touch st.1 m1 (o.touchKb jm.1)
    let r := try_skeleton_shoot g1 m1 now (o.shootDir jm.1)
    (r.2, st.2 ++ [r.1])

/-- The mob-AI section of `Game.update`: each live mob chases the player,
applies contact damage, and tries a skeleton shot, in list order, with the
player state threaded through. -/
def mobsPhase (g : GameState) (now : Int) (o : FrameOracle) : GameState :=
  let res := (enumFrom 0 g.mobs).foldl (mobsPhaseStep now o) (g, [])
  { res.1 with mobs := res.2 }

/-- The animal-AI section of `Game.update`: each live animal wanders. -/
def animalsPhase (animals : List Animal) (o : FrameOracle) : List Animal :=
  (enumFrom 0 animals).map
    (fun ja => if ja.2.alive then Animal.ai ja.2 (o.animalDir ja.1) (o.animalTimerR ja.1)
               else ja.2)

/-- The part of `Game.update(dt)` following input and melee resolution:
portals and theme transitions, spawns, mob and animal AI, the weapon-drop
scan, health-pack pickup, projectile updates, and the dead-entity cleanup,
in source order.  An `IndexError` escaping one of the scan loops aborts
the frame with the state mutated so far. -/
def updateTail (g : GameState) (dt : Int) (o : FrameOracle) : PyResult GameState :=
  let g3 := handle_theme_transitions (portalsPhase g)
  let g4 := spawnsPhase g3 dt o
  let g5 := mobsPhase g4 o.nowAi o
  let g6 := { g5 with animals := animalsPhase g5.animals o }
  match weapon_drops_loop g6.weapon_drops g6.p1 with
  | PyResult.err s => PyResult.err { g6 with p1 := s.1, weapon_drops := s.2 }
  | PyResult.ok s =>
    let g7 := { g6 with p1 := s.1, weapon_drops := s.2 }
    match try_pick_health g7.health_packs g7.p1 with
    | PyResult.err s2 => PyResult.err { g7 with p1 := s2.1, health_packs := s2.2 }
    | PyResult.ok s2 =>
      let g8 := { g7 with p1 := s2.1, health_packs := s2.2 }
      match update_projectiles g8 dt o.projKb with
      | PyResult.err s3 => PyResult.err s3
      | PyResult.ok s3 =>
        PyResult.ok { s3 with mobs := s3.mobs.filter (fun m => m.alive),
                              animals := s3.animals.filter (fun a => a.alive) }

/-- `Game.update(dt)`: the whole frame.  Paused or finished rounds return
immediately; otherwise movement and melee resolution run, followed by the
rest of the frame (`updateTail`). -/
def update (g : GameState) (dt : Int) (o : FrameOracle) : PyResult GameState :=
  if g.paused || g.round_over then PyResult.ok g
  else
    let g1 := { g with p1 := Player.move g.p1 o.moveDisp }
    let g2 :=
      if o.attackInput then
        hunter_melee g1 o.nowAttack o.meleeKbMob o.meleeKbAnimal o.dropRoll
      else g1
    updateTail g2 dt o

/-- The health pack (if any) that one animal of the `hunter_melee` hit
loop contributes: a pack carrying the animal's `kind.heal_amount` at its
post-knockback position, exactly when the live animal is in weapon range
and this attack kills it. -/
def animalPackOf (p : Player) (kbA : Nat → Int × Int) (ja : Nat × Animal) :
    Option (Rect × Int) :=
  if ja.2.alive && meleeHit p ja.2.rect then
    let a1 := apply_damage_animal ja.2 p.weapon.dmg (kbA ja.1)
    if a1.alive = false then
      some (⟨a1.rect.centerx - 8, a1.rect.centery - 8, 18, 18⟩, ja.2.kind.heal_amount)
    else none
  else none

/-- A fixed frame oracle for concrete evaluations: no input, unit vectors,
zero displacements and rolls. -/
def oracle0 : FrameOracle :=
  { moveDisp := (0, 0)
    attackInput := false
    nowAttack := 0
    meleeKbMob := fun _ => (0, 0)
    meleeKbAnimal := fun _ => (0, 0)
    dropRoll := fun _ => Frac.ofInt 0
    spawn := ⟨0, 0, 0, 0⟩
    animalSpawn := ⟨0, 0, 0, (Frac.ofInt 1, Frac.ofInt 0), 0⟩
    nowAi := 0
    aiDisp := fun _ => (0, 0)
    aiKb := fun _ => (Frac.ofInt 0, Frac.ofInt 0)
    touchKb := fun _ => (0, 0)
    shootDir := fun _ => (Frac.ofInt 1, Frac.ofInt 0)
    animalDir := fun _ => (Frac.ofInt 1, Frac.ofInt 0)
    animalTimerR := fun _ => 0
    projKb := fun _ => (0, 0) }

/-- The plain Zombie kind, for concrete states. -/
def plainZombie : MobKind := MOB_KINDS_OVER.getD 2 BOSS_ENDER

/-- The plain Skeleton kind, for concrete states. -/
def skeletonKind : MobKind := MOB_KINDS_OVER.getD 3 BOSS_ENDER

/-- A state holding exactly `MAX_LIVE_MOBS` live non-boss mobs. -/
def g25 : GameState :=
  { gameInit with mobs := List.replicate 25 (mkMob plainZombie 100 100) }

/-- The Chicken kind, for concrete states. -/
def chickenKind : AnimalKind := ANIMALS.getD 0 ⟨"", 0, Frac.ofInt 0, 0⟩

/-- A state with one chicken standing in melee range of the player. -/
def gAnimalNear : GameState :=
  { gameInit with
      animals := [mkAnimal chickenKind 470 310 (Frac.ofInt 1, Frac.ofInt 0) 1000] }

/-- A half-health player at the spawn position, for pickup evaluations. -/
def halfHpPlayer : Player := { mkPlayer 480 320 with hp := 50 }

/-- A rect lying on the spawn-position player. -/
def packRectOnP1 : Rect := ⟨485, 325, 10, 10⟩

/-- An arrow far off the right edge of the arena; its first update kills
it. -/
def arrowOff : Arrow := mkArrow (Frac.ofInt 2000) (Frac.ofInt 100) (Frac.ofInt 1) (Frac.ofInt 0) 12

/-- A state whose two projectiles both expire in the same frame. -/
def gTwoDead : GameState := { gameInit with projectiles := [arrowOff, arrowOff] }

/-- An arrow sitting on the spawn-position player; it survives its update
and still overlaps the player. -/
def arrowOnP1 : Arrow := mkArrow (Frac.ofInt 493) (Frac.ofInt 333) (Frac.ofInt 1) (Frac.ofInt 0) 12

/-- A state with two arrows both striking the player in the same frame. -/
def gTwoHits : GameState := { gameInit with projectiles := [arrowOnP1, arrowOnP1] }

/-- A state with a single arrow striking the player. -/
def gOneHit : GameState := { gameInit with projectiles := [arrowOnP1] }

/-- A player carrying the best weapon, for the drop-pickup evaluations. -/
def bossLootPlayer : Player := { mkPlayer 480 320 with weapon := BOSS_LOOT }

/-- A state with only a dead mob, a wandering chicken and a stray health
pack: no hostile actor is live. -/
def gPeaceful : GameState :=
  { gameInit with
      mobs := [{ mkMob plainZombie 100 100 with alive := false }]
      animals := [mkAnimal chickenKind 200 500 (Frac.ofInt 1, Frac.ofInt 0) 1000]
      health_packs := [(⟨200, 200, 10, 10⟩, 10)] }

/-- A weapon drop lying on the spawn-position player. -/
def dropOnP1 : Rect × Weapon := (⟨490, 322, 16, 16⟩, ELITE_SWORD)

/-- A weapon drop far away from the spawn-position player. -/
def dropFar : Rect × Weapon := (⟨100, 100, 16, 16⟩, ELITE_SWORD)

end MobHunter

namespace MobHunter

/-- Membership of `List.getD` at an in-range index. -/
theorem getD_mem {α : Type} :
    ∀ (l : List α) (i : Nat) (d : α), i < l.length → l.getD i d ∈ l
  | a :: l, 0, _, _ => List.mem_cons_self a l
  | a :: l, i + 1, d, h => by
    have : l.getD i d ∈ l := getD_mem l i d (by simpa using h)
    simpa [List.getD] using List.mem_cons_of_mem a this

/-- C10: with `paused` or `round_over` set, `Game.update(dt)` returns at
once and the whole game state is unchanged, for every `dt` and every
frame input. -/
theorem C10_pause_gate (g : GameState) (dt : Int) (o : FrameOracle)
    (h : g.paused = true ∨ g.round_over = true) :
    update g dt o = PyResult.ok g := by
  unfold update
  rcases h with h | h <;> simp [h]

/-- Witness for C10 at a concrete paused state. -/
theorem C10_pause_gate_witness :
    update { gameInit with paused := true } 16 oracle0 =
      PyResult.ok { gameInit with paused := true } :=
  C10_pause_gate { gameInit with paused := true } 16 oracle0 (Or.inl rfl)

/-- C3: a live mob overlapping the live player damages it by exactly
`kind.contact_dmg`, displaces its rect by the knockback, and a hp ≤ 0
outcome kills the player and ends the round; a dead mob, a dead player or
disjoint rects leave the state untouched. -/
theorem C3_contact_damage (g : GameState) (m : Mob) (kb : Int × Int) :
    (m.alive = true → g.p1.alive = true → m.rect.collide g.p1.rect = true →
      (mobs_damage_p1_on_touch g m kb).p1.hp = g.p1.hp - m.kind.contact_dmg ∧
      (mobs_damage_p1_on_touch g m kb).p1.rect = g.p1.rect.shift kb ∧
      ((mobs_damage_p1_on_touch g m kb).p1.hp ≤ 0 →
        (mobs_damage_p1_on_touch g m kb).p1.alive = false ∧
        (mobs_damage_p1_on_touch g m kb).round_over = true)) ∧
    (m.alive = false ∨ g.p1.alive = false ∨ m.rect.collide g.p1.rect = false →
      mobs_damage_p1_on_touch g m kb = g) := by
  constructor
  · intro hm hp hc
    simp only [mobs_damage_p1_on_touch, apply_damage_player, hm, hp, hc,
      Bool.and_self, if_pos, if_neg, Bool.true_eq_false, not_false_eq_true,
      if_true, if_false]
    by_cases hhp : g.p1.hp - m.kind.contact_dmg ≤ 0 <;>
      simp [hhp]
  · intro h
    rcases h with h | h | h <;>
      simp [mobs_damage_p1_on_touch, h]

/-- Witness for C3: a zombie standing on the freshly spawned player hits
it for its contact damage, and a dead mob changes nothing. -/
theorem C3_contact_damage_witness :
    (mobs_damage_p1_on_touch gameInit (mkMob plainZombie 480 320) (1, 0)).p1.hp =
      gameInit.p1.hp - (mkMob plainZombie 480 320).kind.contact_dmg ∧
    mobs_damage_p1_on_touch gameInit { mkMob plainZombie 480 320 with alive := false } (1, 0) =
      gameInit := by
  refine ⟨((C3_contact_damage gameInit (mkMob plainZombie 480 320) (1, 0)).1
    (by decide) (by decide) (by decide)).1, ?_⟩
  exact (C3_contact_damage gameInit _ (1, 0)).2 (Or.inl rfl)

/-- C2: on a theme change, entering the End removes every boss mob,
appends exactly the one freshly spawned `BOSS_ENDER` mob and sets
`end_boss_alive`; leaving the End removes every boss mob and clears
`end_boss_alive`; `prev_theme` is synchronised; and without a theme change
the call is the identity. -/
theorem C2_theme_transitions (g : GameState) :
    (g.theme ≠ g.prev_theme →
      (handle_theme_transitions g).prev_theme = g.theme ∧
      (g.theme = Theme.END →
        (handle_theme_transitions g).mobs = dropBosses g.mobs ++ [bossEnderMob] ∧
        (handle_theme_transitions g).end_boss_alive = true) ∧
      (g.prev_theme = Theme.END → g.theme ≠ Theme.END →
        (handle_theme_transitions g).mobs = dropBosses g.mobs ∧
        (handle_theme_transitions g).end_boss_alive = false)) ∧
    (g.theme = g.prev_theme → handle_theme_transitions g = g) := by
  constructor
  · intro hne
    refine ⟨?_, ?_, ?_⟩
    · by_cases hEnd : g.theme = Theme.END
      · have h1 : ¬ (g.prev_theme = Theme.END ∧ g.theme ≠ Theme.END) := by
          rintro ⟨_, hc⟩; exact hc hEnd
        have hne3 : ¬ (Theme.END = g.prev_theme) := hEnd ▸ hne
        simp [handle_theme_transitions, spawn_boss, hne, h1, hEnd, hne3]
      · by_cases hPrev : g.prev_theme = Theme.END
        · simp [handle_theme_transitions, hne, hPrev, hEnd]
        · simp [handle_theme_transitions, hne, hPrev, hEnd]
    · intro hEnd
      have h1 : ¬ (g.prev_theme = Theme.END ∧ g.theme ≠ Theme.END) := by
        rintro ⟨_, hc⟩; exact hc hEnd
      have hne3 : ¬ (Theme.END = g.prev_theme) := hEnd ▸ hne
      simp [handle_theme_transitions, spawn_boss, hne, h1, hEnd, hne3]
    · intro hPrev hne2
      simp [handle_theme_transitions, hne, hPrev, hne2]
  · intro heq
    simp [handle_theme_transitions, heq]

/-- Witness for C2 at a concrete End entry and a concrete no-change call. -/
theorem C2_theme_transitions_witness :
    (handle_theme_transitions { g25 with theme := Theme.END }).mobs =
      dropBosses g25.mobs ++ [bossEnderMob] ∧
    handle_theme_transitions gameInit = gameInit := by
  refine ⟨((C2_theme_transitions { g25 with theme := Theme.END }).1 (by decide)).2.1 rfl |>.1, ?_⟩
  exact (C2_theme_transitions gameInit).2 rfl

/-- C1 (amended): `spawn_mob` is the identity at or above the cap, and so
never raises the live-mob count beyond `MAX_LIVE_MOBS`; `spawn_boss`
however appends a live boss unconditionally, raising the live count by
one — above the cap when the cap was already reached. -/
theorem C1_mob_cap (g : GameState) (o : SpawnOracle) :
    (MAX_LIVE_MOBS ≤ live_mob_count g → spawn_mob g o = g) ∧
    live_mob_count (spawn_mob g o) ≤ max (live_mob_count g) MAX_LIVE_MOBS ∧
    live_mob_count (spawn_boss g) = live_mob_count g + 1 := by
  have hboss : live_mob_count (spawn_boss g) = live_mob_count g + 1 := by
    simp [live_mob_count, spawn_boss, List.countP_append, bossEnderMob, mkMob,
      List.countP_cons]
  have hid : ∀ _ : MAX_LIVE_MOBS ≤ live_mob_count g, spawn_mob g o = g := by
    intro h
    unfold spawn_mob
    rw [if_pos h]
  refine ⟨hid, ?_, hboss⟩
  by_cases h : MAX_LIVE_MOBS ≤ live_mob_count g
  · rw [hid h]
    exact le_max_left _ _
  · have hcount : live_mob_count (spawn_mob g o) = live_mob_count g + 1 := by
      unfold spawn_mob
      rw [if_neg h]
      simp [live_mob_count, List.countP_append, mkMob, List.countP_cons]
    rw [hcount]
    have h2 : live_mob_count g + 1 ≤ MAX_LIVE_MOBS := by omega
    exact le_trans h2 (le_max_right _ _)

/-- Witness for C1 at the concrete 25-live-mob state. -/
theorem C1_mob_cap_witness :
    spawn_mob g25 ⟨0, 0, 0, 0⟩ = g25 ∧
    live_mob_count (spawn_boss g25) = live_mob_count g25 + 1 :=
  ⟨(C1_mob_cap g25 ⟨0, 0, 0, 0⟩).1 (by decide), (C1_mob_cap g25 ⟨0, 0, 0, 0⟩).2.2⟩

/-- Counterexample to C1 as stated: entering the End with 25 live non-boss
mobs runs `spawn_boss` with no cap check, leaving 26 live mobs — one above
`MAX_LIVE_MOBS`. -/
theorem C1_mob_cap_cex :
    MAX_LIVE_MOBS <
      live_mob_count (handle_theme_transitions { g25 with theme := Theme.END }) := by
  decide

/-- C4 (amended): the spawn pool is `MOB_KINDS_OVER` in the Overworld,
`MOB_KINDS_NETH` plus one randomly chosen Overworld kind in the Nether,
and — by fall-through, with no End-specific pool — again `MOB_KINDS_OVER`
in the End; `spawn_mob` always draws the new mob's kind from
`current_pool()`. -/
theorem C4_spawn_pools (g : GameState) (r : Nat) (o : SpawnOracle) :
    (g.theme = Theme.OVERWORLD → current_pool g r = MOB_KINDS_OVER) ∧
    (g.theme = Theme.NETHER →
      current_pool g r =
        MOB_KINDS_NETH ++ [MOB_KINDS_OVER.getD (r % MOB_KINDS_OVER.length) BOSS_ENDER]) ∧
    (g.theme = Theme.END → current_pool g r = MOB_KINDS_OVER) ∧
    (live_mob_count g < MAX_LIVE_MOBS →
      ∃ m : Mob, (spawn_mob g o).mobs = g.mobs ++ [m] ∧ m.kind ∈ current_pool g o.poolR) := by
  refine ⟨fun h => by simp [current_pool, h], fun h => by simp [current_pool, h],
    fun h => by simp [current_pool, h], fun h => ?_⟩
  have hlen : 0 < (current_pool g o.poolR).length := by
    unfold current_pool
    by_cases h1 : g.theme = Theme.OVERWORLD
    · simp [h1, MOB_KINDS_OVER]
    · by_cases h2 : g.theme = Theme.NETHER <;> simp [h1, h2, MOB_KINDS_OVER, MOB_KINDS_NETH]
  have hnot : ¬ MAX_LIVE_MOBS ≤ live_mob_count g := by omega
  refine ⟨mkMob ((current_pool g o.poolR).getD (o.kindR % (current_pool g o.poolR).length)
    BOSS_ENDER) (spawnSideXY o).1 (spawnSideXY o).2, ?_, ?_⟩
  · unfold spawn_mob
    rw [if_neg hnot]
  · have hm := getD_mem (current_pool g o.poolR)
      (o.kindR % (current_pool g o.poolR).length) BOSS_ENDER (Nat.mod_lt _ hlen)
    simpa [mkMob] using hm

/-- Witness for C4 at the freshly initialised Overworld state. -/
theorem C4_spawn_pools_witness :
    current_pool gameInit 0 = MOB_KINDS_OVER ∧
    ∃ m : Mob, (spawn_mob gameInit ⟨0, 0, 0, 0⟩).mobs = gameInit.mobs ++ [m] ∧
      m.kind ∈ current_pool gameInit 0 :=
  ⟨(C4_spawn_pools gameInit 0 ⟨0, 0, 0, 0⟩).1 rfl,
   (C4_spawn_pools gameInit 0 ⟨0, 0, 0, 0⟩).2.2.2 (by decide)⟩

/-- Counterexample to C4 as stated: in the End, `current_pool` is not an
End-specific pool — it is exactly the Overworld pool. -/
theorem C4_spawn_pools_cex :
    current_pool { gameInit with theme := Theme.END, prev_theme := Theme.END } 0 =
      MOB_KINDS_OVER ∧
    current_pool { gameInit with theme := Theme.END, prev_theme := Theme.END } 0 =
      current_pool gameInit 0 := by
  exact ⟨rfl, rfl⟩

/-- Prefixes of a pop-scan snapshot whose items all fail the test are
skipped without touching the state. -/
theorem popLoop_skip {α σ : Type} (p : α → Bool) (eff : α → σ → σ)
    (snap1 snap2 : List (Nat × α)) :
    ∀ (cur : List α) (s : σ), (∀ e ∈ snap1, p e.2 = false) →
      popLoop p eff (snap1 ++ snap2) cur s = popLoop p eff snap2 cur s := by
  induction snap1 with
  | nil => intro cur s _; rfl
  | cons e rest ih =>
    intro cur s h
    have he : p e.2 = false := h e (List.mem_cons_self _ _)
    simp only [List.cons_append, popLoop, he, Bool.false_eq_true, if_false]
    exact ih cur s (fun x hx => h x (List.mem_cons_of_mem _ hx))

/-- A pop-scan whose snapshot holds no passing item returns state and list
unchanged. -/
theorem popLoop_nohit {α σ : Type} (p : α → Bool) (eff : α → σ → σ)
    (snap : List (Nat × α)) (cur : List α) (s : σ)
    (h : ∀ e ∈ snap, p e.2 = false) :
    popLoop p eff snap cur s = PyResult.ok (s, cur) := by
  have hs := popLoop_skip p eff snap [] cur s h
  simpa using hs

/-- Popping at the length of the prefix removes exactly the middle
element. -/
theorem popIdx_append {α : Type} (P : List α) (y : α) (Q : List α) :
    popIdx (P ++ y :: Q) P.length = some (y, P ++ Q) := by
  induction P with
  | nil => rfl
  | cons a P ih => simp [popIdx, ih]

/-- Splitting an enumeration snapshot over an append. -/
theorem enumFrom_append {α : Type} (l1 l2 : List α) :
    ∀ n, enumFrom n (l1 ++ l2) = enumFrom n l1 ++ enumFrom (n + l1.length) l2 := by
  induction l1 with
  | nil => intro n; simp [enumFrom]
  | cons a l ih =>
    intro n
    have harith : n + 1 + l.length = n + (l.length + 1) := by omega
    show (n, a) :: enumFrom (n + 1) (l ++ l2) =
      (n, a) :: (enumFrom (n + 1) l ++ enumFrom (n + (l.length + 1)) l2)
    rw [ih (n + 1), harith]

/-- Items of an enumeration snapshot come from the underlying list. -/
theorem enumFrom_snd_mem {α : Type} (l : List α) :
    ∀ (n : Nat) (e : Nat × α), e ∈ enumFrom n l → e.2 ∈ l := by
  induction l with
  | nil => intro n e h; simp [enumFrom] at h
  | cons a l ih =>
    intro n e h
    simp only [enumFrom, List.mem_cons] at h
    rcases h with h | h
    · subst h; exact List.mem_cons_self _ _
    · exact List.mem_cons_of_mem _ (ih (n + 1) e h)

/-- A pop-scan over a list whose sole passing item is `x` applies the
effect once and removes exactly `x`. -/
theorem popLoop_single {α σ : Type} (p : α → Bool) (eff : α → σ → σ)
    (A B : List α) (x : α) (s : σ)
    (hA : ∀ a ∈ A, p a = false) (hB : ∀ b ∈ B, p b = false) (hx : p x = true) :
    popLoop p eff (enumFrom 0 (A ++ x :: B)) (A ++ x :: B) s =
      PyResult.ok (eff x s, A ++ B) := by
  have hsplit : enumFrom 0 (A ++ x :: B)
      = enumFrom 0 A ++ ((A.length, x) :: enumFrom (A.length + 1) B) := by
    rw [enumFrom_append]
    simp [enumFrom]
  rw [hsplit]
  rw [popLoop_skip p eff (enumFrom 0 A) _ _ _
    (fun e he => hA e.2 (enumFrom_snd_mem A 0 e he))]
  simp only [popLoop, hx, if_true, popIdx_append]
  exact popLoop_nohit p eff _ _ _ (fun e he => hB e.2 (enumFrom_snd_mem B _ e he))

/-- The animal half of the `hunter_melee` hit loop appends exactly the
packs of the animals it kills, in animal order. -/
theorem meleeAnimal_packs (p : Player) (kbA : Nat → Int × Int) :
    ∀ (snap : List (Nat × Animal)) (acc : MeleeAnimalAcc),
      (snap.foldl (meleeAnimalStep p kbA) acc).packs =
        acc.packs ++ snap.filterMap (animalPackOf p kbA) := by
  intro snap
  induction snap with
  | nil => intro acc; simp
  | cons ja rest ih =>
    intro acc
    simp only [List.foldl_cons, List.filterMap_cons]
    rw [ih]
    by_cases h1 : (ja.2.alive && meleeHit p ja.2.rect) = true
    · by_cases h2 : (apply_damage_animal ja.2 p.weapon.dmg (kbA ja.1)).alive = false
      · simp [meleeAnimalStep, animalPackOf, h1, h2]
      · simp [meleeAnimalStep, animalPackOf, h1, h2]
    · simp [meleeAnimalStep, animalPackOf, h1]

/-- C5 (amended): a `hunter_melee` attack past its cooldown extends
`health_packs` by exactly one pack per animal it kills, carrying that
animal's `kind.heal_amount`; and `try_pick_health` heals the live player
by a pack it overlaps — to `min(hp + amount, max_hp)` — and removes
exactly that pack, whenever that pack is the only one overlapping. -/
theorem C5_animal_heal :
    (∀ (g : GameState) (now : Int) (kbM kbA : Nat → Int × Int) (roll : Nat → Frac),
      g.p1.weapon.cooldown_ms ≤ now - g.p1.last_attack →
      (hunter_melee g now kbM kbA roll).health_packs =
        g.health_packs ++ (enumFrom 0 g.animals).filterMap (animalPackOf g.p1 kbA)) ∧
    (∀ (A B : List (Rect × Int)) (x : Rect × Int) (who : Player),
      who.alive = true →
      (∀ e ∈ A, who.rect.collide e.1 = false) →
      (∀ e ∈ B, who.rect.collide e.1 = false) →
      who.rect.collide x.1 = true →
      0 ≤ who.hp + x.2 →
      0 ≤ who.max_hp →
      try_pick_health (A ++ x :: B) who =
        PyResult.ok ({ who with hp := min (who.hp + x.2) who.max_hp }, A ++ B)) := by
  constructor
  · intro g now kbM kbA roll hcd
    have hno : ¬ now - g.p1.last_attack < g.p1.weapon.cooldown_ms := by omega
    unfold hunter_melee
    rw [if_neg hno]
    by_cases hT : (g.mobs.any (fun m => m.alive && meleeHit g.p1 m.rect) ||
        g.animals.any (fun a => a.alive && meleeHit g.p1 a.rect)) = false
    · rw [if_pos hT]
      have hanim : g.animals.any (fun a => a.alive && meleeHit g.p1 a.rect) = false :=
        (Bool.or_eq_false_iff.mp hT).2
      have hnone : ∀ e ∈ enumFrom 0 g.animals, animalPackOf g.p1 kbA e = none := by
        intro e he
        have : (e.2.alive && meleeHit g.p1 e.2.rect) = false := by
          have hmem := enumFrom_snd_mem g.animals 0 e he
          have := List.any_eq_false.mp hanim e.2 hmem -- hmm name check
          simpa using this
        simp [animalPackOf, this]
      rw [List.filterMap_eq_nil_iff.mpr hnone]
      simp
    · rw [if_neg hT]
      simp only []
      rw [meleeAnimal_packs g.p1 kbA (enumFrom 0 g.animals) ⟨[], []⟩]
      simp
  · intro A B x who halive hA hB hx hnn hmx
    unfold try_pick_health
    have hstep := popLoop_single (fun e => who.alive && who.rect.collide e.1)
      (fun e w => { w with hp := clamp (w.hp + e.2) 0 w.max_hp })
      A B x who
      (fun a ha => by simp [hA a ha]) (fun b hb => by simp [hB b hb])
      (by simp [halive, hx])
    rw [hstep]
    have hclamp : clamp (who.hp + x.2) 0 who.max_hp = min (who.hp + x.2) who.max_hp := by
      unfold clamp
      omega
    simp [hclamp]

/-- Witness for C5: the chicken in melee range is killed by the attack and
leaves its 15-hp pack, and the half-health player picks a lone touching
10-hp pack up, healing to 60. -/
theorem C5_animal_heal_witness :
    (hunter_melee gAnimalNear 1000 (fun _ => (0, 0)) (fun _ => (0, 0))
        (fun _ => Frac.ofInt 0)).health_packs =
      gAnimalNear.health_packs ++
        (enumFrom 0 gAnimalNear.animals).filterMap (animalPackOf gAnimalNear.p1 (fun _ => (0, 0))) ∧
    try_pick_health ([] ++ (packRectOnP1, 10) :: []) halfHpPlayer =
      PyResult.ok ({ halfHpPlayer with hp := min (halfHpPlayer.hp + 10) halfHpPlayer.max_hp },
        [] ++ []) := by
  constructor
  · exact C5_animal_heal.1 gAnimalNear 1000 _ _ _ (by decide)
  · exact C5_animal_heal.2 [] [] (packRectOnP1, 10) halfHpPlayer (by decide)
      (by simp) (by simp) (by decide) (by decide) (by decide)

/-- Counterexample to C5 as stated: with two overlapping packs the stale
snapshot index pops out of range — the call heals twice but raises an
IndexError with the second pack still in the list, instead of removing
every overlapping pack. -/
theorem C5_animal_heal_cex :
    (try_pick_health [(packRectOnP1, 10), (packRectOnP1, 20)] halfHpPlayer).isErr = true ∧
    (try_pick_health [(packRectOnP1, 10), (packRectOnP1, 20)] halfHpPlayer).stateOf.2 =
      [(packRectOnP1, 20)] ∧
    (try_pick_health [(packRectOnP1, 10), (packRectOnP1, 20)] halfHpPlayer).stateOf.1.hp = 80 := by
  decide

/-- C6 (amended): a weapon drop overlapping the player sets the player's
weapon to the drop's weapon — unconditionally, even when that is a
downgrade — and, when it is the only overlapping drop, it alone is
removed; a scan with no overlapping drop changes nothing. -/
theorem C6_weapon_drops :
    (∀ (A B : List (Rect × Weapon)) (x : Rect × Weapon) (p : Player),
      (∀ d ∈ A, p.rect.collide d.1 = false) →
      (∀ d ∈ B, p.rect.collide d.1 = false) →
      p.rect.collide x.1 = true →
      weapon_drops_loop (A ++ x :: B) p =
        PyResult.ok ({ p with weapon := x.2 }, A ++ B)) ∧
    (∀ (drops : List (Rect × Weapon)) (p : Player),
      (∀ d ∈ drops, p.rect.collide d.1 = false) →
      weapon_drops_loop drops p = PyResult.ok (p, drops)) := by
  constructor
  · intro A B x p hA hB hx
    unfold weapon_drops_loop
    exact popLoop_single _ _ A B x p hA hB hx
  · intro drops p h
    unfold weapon_drops_loop
    exact popLoop_nohit _ _ _ _ _ (fun e he => h e.2 (enumFrom_snd_mem drops 0 e he))

/-- Witness for C6: a lone touching elite-sword drop rearms the starting
player and is removed; a far-away drop is left alone. -/
theorem C6_weapon_drops_witness :
    weapon_drops_loop ([] ++ dropOnP1 :: [dropFar]) (mkPlayer 480 320) =
      PyResult.ok ({ mkPlayer 480 320 with weapon := dropOnP1.2 }, [] ++ [dropFar]) ∧
    weapon_drops_loop [dropFar] (mkPlayer 480 320) =
      PyResult.ok (mkPlayer 480 320, [dropFar]) := by
  constructor
  · exact C6_weapon_drops.1 [] [dropFar] dropOnP1 (mkPlayer 480 320) (by simp)
      (by decide) (by decide)
  · exact C6_weapon_drops.2 [dropFar] (mkPlayer 480 320) (by decide)

/-- Counterexample to C6 as stated: a player carrying the End Sword walks
over two elite-sword drops with a third untouched drop behind them — the
upgrade claim fails (36 < 50, a downgrade), a touched drop survives the
scan and the untouched drop is removed by the stale pop index. -/
theorem C6_weapon_drops_cex :
    weapon_drops_loop [dropOnP1, dropOnP1, dropFar] bossLootPlayer =
      PyResult.ok ({ bossLootPlayer with weapon := ELITE_SWORD }, [dropOnP1]) ∧
    ELITE_SWORD.dmg < BOSS_LOOT.dmg := by
  decide

/-- Enumerating preserves length. -/
theorem enumFrom_length {α : Type} (l : List α) :
    ∀ n, (enumFrom n l).length = l.length := by
  induction l with
  | nil => intro n; rfl
  | cons a l ih => intro n; simp [enumFrom, ih]

/-- Dropping the indices of an enumeration snapshot recovers the list. -/
theorem enumFrom_map_snd {α : Type} (l : List α) :
    ∀ n, (enumFrom n l).map (fun e => e.2) = l := by
  induction l with
  | nil => intro n; rfl
  | cons a l ih => intro n; simp [enumFrom, ih]

/-- Indices of an enumeration snapshot lie in the enumerated range. -/
theorem enumFrom_fst_bound {α : Type} (l : List α) :
    ∀ (n : Nat) (e : Nat × α), e ∈ enumFrom n l → n ≤ e.1 ∧ e.1 < n + l.length := by
  induction l with
  | nil => intro n e h; simp [enumFrom] at h
  | cons a l ih =>
    intro n e h
    simp only [enumFrom, List.mem_cons] at h
    rcases h with h | h
    · subst h; simp only [List.length_cons]; omega
    · obtain ⟨h1, h2⟩ := ih (n + 1) e h
      simp only [List.length_cons]
      omega

/-- Writing an arrow object back through an identity that occurs exactly
once replaces exactly its entry. -/
theorem replaceId_middle (P Q : List (Nat × Arrow)) (i : Nat) (v a : Arrow)
    (hP : ∀ e ∈ P, e.1 ≠ i) (hQ : ∀ e ∈ Q, e.1 ≠ i) :
    replaceId (P ++ (i, v) :: Q) i a = P ++ (i, a) :: Q := by
  unfold replaceId
  rw [List.map_append, List.map_cons]
  have h1 : P.map (fun e => if e.1 = i then (i, a) else e) = P := by
    conv_rhs => rw [← List.map_id P]
    apply List.map_congr_left
    intro e he
    simp [hP e he]
  have h2 : Q.map (fun e => if e.1 = i then (i, a) else e) = Q := by
    conv_rhs => rw [← List.map_id Q]
    apply List.map_congr_left
    intro e he
    simp [hQ e he]
  simp [h1, h2]

/-- A projectile-loop segment whose arrows all survive their update and
miss the player only writes the updated arrows back: no pop happens, and
player and round flag are untouched. -/
theorem projLoop_pass_seg (dt : Int) (kb : Nat → Int × Int) (S : List Arrow) :
    ∀ (n : Nat) (rest : List (Nat × Arrow)) (P Q : List (Nat × Arrow))
      (p1 : Player) (ro : Bool),
      (∀ a ∈ S, a.alive = true ∧ (a.update dt).alive = true ∧
        (p1.alive && (a.update dt).rect.collide p1.rect) = false) →
      (∀ e ∈ P, e.1 < n) →
      (∀ e ∈ Q, n + S.length ≤ e.1) →
      projLoop dt kb (enumFrom n S ++ rest) ⟨P ++ enumFrom n S ++ Q, p1, ro⟩ =
        projLoop dt kb rest
          ⟨P ++ enumFrom n (S.map (fun a => a.update dt)) ++ Q, p1, ro⟩ := by
  induction S with
  | nil =>
    intro n rest P Q p1 ro _ _ _
    simp [enumFrom]
  | cons b S ih =>
    intro n rest P Q p1 ro hS hP hQ
    obtain ⟨hb1, hb2, hb3⟩ := hS b (List.mem_cons_self _ _)
    have he1 : enumFrom n (b :: S) = (n, b) :: enumFrom (n + 1) S := rfl
    have he2 : enumFrom n ((b :: S).map (fun a => a.update dt)) =
        (n, b.update dt) :: enumFrom (n + 1) (S.map (fun a => a.update dt)) := rfl
    rw [he1, he2, List.cons_append]
    have hrep2 : replaceId ((P ++ ((n, b) :: enumFrom (n + 1) S)) ++ Q) n (b.update dt) =
        (P ++ ((n, b.update dt) :: enumFrom (n + 1) S)) ++ Q := by
      have hx : (P ++ ((n, b) :: enumFrom (n + 1) S)) ++ Q =
          P ++ (n, b) :: (enumFrom (n + 1) S ++ Q) := by simp
      have hy : (P ++ ((n, b.update dt) :: enumFrom (n + 1) S)) ++ Q =
          P ++ (n, b.update dt) :: (enumFrom (n + 1) S ++ Q) := by simp
      rw [hx, hy]
      apply replaceId_middle
      · intro e he
        have := hP e he
        omega
      · intro e he
        rcases List.mem_append.mp he with h | h
        · have := (enumFrom_fst_bound S (n + 1) e h).1
          omega
        · have := hQ e h
          simp only [List.length_cons] at this
          omega
    simp only [projLoop, hb1, hb2, hb3, Bool.true_eq_false, Bool.false_eq_true,
      if_false, hrep2]
    have hPQ : (P ++ ((n, b.update dt) :: enumFrom (n + 1) S)) ++ Q =
        ((P ++ [(n, b.update dt)]) ++ enumFrom (n + 1) S) ++ Q := by
      simp
    rw [hPQ]
    rw [ih (n + 1) rest (P ++ [(n, b.update dt)]) Q p1 ro
      (fun a ha => hS a (List.mem_cons_of_mem _ ha))
      (by
        intro e he
        rcases List.mem_append.mp he with h | h
        · have := hP e h; omega
        · simp only [List.mem_singleton] at h
          subst h
          omega)
      (by
        intro e he
        have := hQ e he
        simp only [List.length_cons] at this
        omega)]
    congr 1
    simp

/-- Front specialisation of `projLoop_pass_seg` (empty processed prefix). -/
theorem projLoop_pass_front (dt : Int) (kb : Nat → Int × Int) (S : List Arrow)
    (rest Q : List (Nat × Arrow)) (p1 : Player) (ro : Bool)
    (hS : ∀ a ∈ S, a.alive = true ∧ (a.update dt).alive = true ∧
      (p1.alive && (a.update dt).rect.collide p1.rect) = false)
    (hQ : ∀ e ∈ Q, S.length ≤ e.1) :
    projLoop dt kb (enumFrom 0 S ++ rest) ⟨enumFrom 0 S ++ Q, p1, ro⟩ =
      projLoop dt kb rest ⟨enumFrom 0 (S.map (fun a => a.update dt)) ++ Q, p1, ro⟩ := by
  have h := projLoop_pass_seg dt kb S 0 rest [] Q p1 ro hS (by simp) (by simpa using hQ)
  simpa using h

/-- Tail specialisation of `projLoop_pass_seg` (nothing follows). -/
theorem projLoop_pass_tail (dt : Int) (kb : Nat → Int × Int) (S : List Arrow)
    (n : Nat) (P : List (Nat × Arrow)) (p1 : Player) (ro : Bool)
    (hS : ∀ a ∈ S, a.alive = true ∧ (a.update dt).alive = true ∧
      (p1.alive && (a.update dt).rect.collide p1.rect) = false)
    (hP : ∀ e ∈ P, e.1 < n) :
    projLoop dt kb (enumFrom n S) ⟨P ++ enumFrom n S, p1, ro⟩ =
      PyResult.ok ⟨P ++ enumFrom n (S.map (fun a => a.update dt)), p1, ro⟩ := by
  have h := projLoop_pass_seg dt kb S n [] P [] p1 ro hS hP (by simp)
  simpa using h

/-- A hit on a live player deducts exactly the projectile's damage. -/
theorem apply_damage_player_hp (p : Player) (dmg : Int) (kb : Int × Int)
    (h : p.alive = true) :
    (apply_damage_player p dmg kb).hp = p.hp - dmg := by
  unfold apply_damage_player
  rw [h]
  simp only [Bool.true_eq_false, if_false]
  split <;> rfl

/-- Updating an arrow never changes its damage. -/
theorem Arrow.update_dmg (a : Arrow) (dt : Int) : (a.update dt).dmg = a.dmg := by
  unfold Arrow.update
  split <;> rfl

/-- Characterisation of `Game.update_projectiles` when exactly one arrow
is removed: it is the one that strikes the live player; all others survive
their update and miss.  The struck player takes the arrow's damage, every
surviving arrow is kept (updated) and the hit arrow alone is removed. -/
theorem update_projectiles_one_hit (g : GameState) (dt : Int)
    (kb : Nat → Int × Int) (A B : List Arrow) (x : Arrow)
    (hproj : g.projectiles = A ++ x :: B)
    (hA : ∀ a ∈ A, a.alive = true ∧ (a.update dt).alive = true ∧
      (g.p1.alive && (a.update dt).rect.collide g.p1.rect) = false)
    (hx1 : x.alive = true) (hx2 : (x.update dt).alive = true)
    (hp1 : g.p1.alive = true)
    (hcol : (x.update dt).rect.collide g.p1.rect = true)
    (hB : ∀ b ∈ B, b.alive = true ∧ (b.update dt).alive = true ∧
      ((apply_damage_player g.p1 (x.update dt).dmg (kb A.length)).alive &&
        (b.update dt).rect.collide
          (apply_damage_player g.p1 (x.update dt).dmg (kb A.length)).rect) = false) :
    update_projectiles g dt kb =
      PyResult.ok { g with
        projectiles := A.map (fun a => a.update dt) ++ B.map (fun b => b.update dt),
        p1 := apply_damage_player g.p1 (x.update dt).dmg (kb A.length),
        round_over :=
          if (apply_damage_player g.p1 (x.update dt).dmg (kb A.length)).hp ≤ 0 then true
          else g.round_over } := by
  simp only [update_projectiles]
  rw [hproj]
  have hsnap : enumFrom 0 (A ++ x :: B) =
      enumFrom 0 A ++ ((A.length, x) :: enumFrom (A.length + 1) B) := by
    rw [enumFrom_append]
    simp [enumFrom]
  rw [hsnap]
  rw [projLoop_pass_front dt kb A _ _ g.p1 g.round_over hA
    (by
      intro e he
      rcases List.mem_cons.mp he with h | h
      · subst h; omega
      · have := (enumFrom_fst_bound B (A.length + 1) e h).1
        omega)]
  have hlenA : (enumFrom 0 (A.map (fun a => a.update dt))).length = A.length := by
    rw [enumFrom_length, List.length_map]
  have hboundA : ∀ e ∈ enumFrom 0 (A.map (fun a => a.update dt)), e.1 < A.length := by
    intro e he
    have := (enumFrom_fst_bound _ 0 e he).2
    simpa [List.length_map] using this
  have hrep1 : replaceId
      (enumFrom 0 (A.map (fun a => a.update dt)) ++ ((A.length, x) :: enumFrom (A.length + 1) B))
      A.length (x.update dt) =
      enumFrom 0 (A.map (fun a => a.update dt)) ++
        ((A.length, x.update dt) :: enumFrom (A.length + 1) B) :=
    replaceId_middle _ _ _ _ _ (fun e he => by have := hboundA e he; omega)
      (fun e he => by have := (enumFrom_fst_bound B (A.length + 1) e he).1; omega)
  have hrep2 : replaceId
      (enumFrom 0 (A.map (fun a => a.update dt)) ++
        ((A.length, x.update dt) :: enumFrom (A.length + 1) B))
      A.length { x.update dt with alive := false } =
      enumFrom 0 (A.map (fun a => a.update dt)) ++
        ((A.length, { x.update dt with alive := false }) :: enumFrom (A.length + 1) B) :=
    replaceId_middle _ _ _ _ _ (fun e he => by have := hboundA e he; omega)
      (fun e he => by have := (enumFrom_fst_bound B (A.length + 1) e he).1; omega)
  have hpop : popIdx
      (enumFrom 0 (A.map (fun a => a.update dt)) ++
        ((A.length, { x.update dt with alive := false }) :: enumFrom (A.length + 1) B))
      A.length =
      some ((A.length, { x.update dt with alive := false }),
        enumFrom 0 (A.map (fun a => a.update dt)) ++ enumFrom (A.length + 1) B) := by
    rw [← hlenA]
    exact popIdx_append _ _ _
  simp only [projLoop, hx1, hx2, hp1, hcol, Bool.true_eq_false, Bool.false_eq_true,
    if_false, hrep1, hrep2, Bool.true_and, if_true, hpop]
  rw [projLoop_pass_tail dt kb B (A.length + 1)
    (enumFrom 0 (A.map (fun a => a.update dt)))
    (apply_damage_player g.p1 (x.update dt).dmg (kb A.length)) _ hB
    (fun e he => Nat.lt_succ_of_lt (hboundA e he))]
  simp [List.map_append, enumFrom_map_snd]

/-- C7 (amended): a mob is an archer iff "skeleton" occurs
case-insensitively in its kind name; archers start with 3 shots (and
non-archers with 0), a 380-pixel range and a 950 ms cooldown;
`try_skeleton_shoot` fires exactly when the archer has shots left, the
player is alive and within range, and the cooldown has elapsed — spending
one shot and appending a damage-12 arrow; and an arrow that collides with
the live player deals it exactly its 12 damage and is removed, whenever it
is the only projectile removed in that call (simultaneous removals derail
the stale pop indices — see the counterexample). -/
theorem C7_archer_behaviour :
    (∀ (kind : MobKind) (x y : Int),
      ((mkMob kind x y).is_archer = true ↔
        pyInChars "skeleton".toList (lowerChars kind.name.toList) = true) ∧
      (mkMob kind x y).shots_left =
        (if pyInChars "skeleton".toList (lowerChars kind.name.toList) then 3 else 0) ∧
      (mkMob kind x y).shot_range = 380 ∧
      (mkMob kind x y).shot_cooldown_ms = 950) ∧
    (∀ (g : GameState) (m : Mob) (now : Int) (dir : Frac × Frac),
      (m.is_archer = true → 0 < m.shots_left → g.p1.alive = true →
        distSq m.rect.center g.p1.rect.center ≤ m.shot_range ^ 2 →
        m.shot_cooldown_ms ≤ now - m.last_shot_time →
        try_skeleton_shoot g m now dir =
          ({ m with last_shot_time := now, shots_left := m.shots_left - 1 },
           { g with projectiles := g.projectiles ++
              [mkArrow (Frac.ofInt m.rect.centerx) (Frac.ofInt m.rect.centery)
                dir.1 dir.2 12] })) ∧
      ((m.is_archer = false ∨ m.shots_left ≤ 0 ∨ g.p1.alive = false ∨
        m.shot_range ^ 2 < distSq m.rect.center g.p1.rect.center ∨
        now - m.last_shot_time < m.shot_cooldown_ms) →
        try_skeleton_shoot g m now dir = (m, g))) ∧
    (∀ (g : GameState) (dt : Int) (kb : Nat → Int × Int) (A B : List Arrow) (x : Arrow),
      g.projectiles = A ++ x :: B →
      (∀ a ∈ A, a.alive = true ∧ (a.update dt).alive = true ∧
        (g.p1.alive && (a.update dt).rect.collide g.p1.rect) = false) →
      x.alive = true → (x.update dt).alive = true → g.p1.alive = true →
      (x.update dt).rect.collide g.p1.rect = true →
      (∀ b ∈ B, b.alive = true ∧ (b.update dt).alive = true ∧
        ((apply_damage_player g.p1 (x.update dt).dmg (kb A.length)).alive &&
          (b.update dt).rect.collide
            (apply_damage_player g.p1 (x.update dt).dmg (kb A.length)).rect) = false) →
      update_projectiles g dt kb =
        PyResult.ok { g with
          projectiles := A.map (fun a => a.update dt) ++ B.map (fun b => b.update dt),
          p1 := apply_damage_player g.p1 (x.update dt).dmg (kb A.length),
          round_over :=
            if (apply_damage_player g.p1 (x.update dt).dmg (kb A.length)).hp ≤ 0 then true
            else g.round_over } ∧
      (update_projectiles g dt kb).stateOf.p1.hp = g.p1.hp - x.dmg) := by
  refine ⟨?_, ?_, ?_⟩
  · intro kind x y
    exact ⟨by simp [mkMob], rfl, rfl, rfl⟩
  · intro g m now dir
    constructor
    · intro h1 h2 h3 h4 h5
      unfold try_skeleton_shoot
      have hc1 : (m.is_archer && decide (0 < m.shots_left) && g.p1.alive) = true := by
        simp [h1, h2, h3]
      rw [hc1]
      simp only [Bool.true_eq_false, if_false]
      rw [if_neg (by omega : ¬ m.shot_range ^ 2 < distSq m.rect.center g.p1.rect.center)]
      rw [if_neg (by omega : ¬ now - m.last_shot_time < m.shot_cooldown_ms)]
    · intro h
      unfold try_skeleton_shoot
      by_cases hc1 : (m.is_archer && decide (0 < m.shots_left) && g.p1.alive) = false
      · simp [hc1]
      · have hc1' : (m.is_archer && decide (0 < m.shots_left) && g.p1.alive) = true := by
          rcases Bool.eq_false_or_eq_true
            (m.is_archer && decide (0 < m.shots_left) && g.p1.alive) with hb | hb
          · exact hb
          · exact absurd hb hc1
        obtain ⟨ha, hs', hal⟩ :
            m.is_archer = true ∧ 0 < m.shots_left ∧ g.p1.alive = true := by
          simpa [Bool.and_eq_true, and_assoc] using hc1'
        by_cases hc2 : m.shot_range ^ 2 < distSq m.rect.center g.p1.rect.center
        · simp [hc1', hc2]
        · have hc3 : now - m.last_shot_time < m.shot_cooldown_ms := by
            rcases h with h | h | h | h | h
            · rw [h] at ha; cases ha
            · omega
            · rw [h] at hal; cases hal
            · exact absurd h hc2
            · exact h
          simp [hc1', hc2, hc3]
  · intro g dt kb A B x hproj hA hx1 hx2 hp1 hcol hB
    have hmain := update_projectiles_one_hit g dt kb A B x hproj hA hx1 hx2 hp1 hcol hB
    refine ⟨hmain, ?_⟩
    rw [hmain]
    simp only [PyResult.stateOf]
    rw [apply_damage_player_hp _ _ _ hp1, Arrow.update_dmg]

/-- Witness for C7: the Skeleton kind is an archer; a concrete in-range,
off-cooldown skeleton fires a damage-12 arrow at the spawn player; and a
lone arrow striking the player costs it exactly the arrow's 12 damage. -/
theorem C7_archer_behaviour_witness :
    (mkMob skeletonKind 100 100).is_archer = true ∧
    try_skeleton_shoot gameInit (mkMob skeletonKind 600 320) 1000
        (Frac.ofInt 1, Frac.ofInt 0) =
      ({ mkMob skeletonKind 600 320 with
          last_shot_time := 1000
          shots_left := (mkMob skeletonKind 600 320).shots_left - 1 },
       { gameInit with projectiles := gameInit.projectiles ++
          [mkArrow (Frac.ofInt (mkMob skeletonKind 600 320).rect.centerx)
            (Frac.ofInt (mkMob skeletonKind 600 320).rect.centery)
            (Frac.ofInt 1) (Frac.ofInt 0) 12] }) ∧
    (update_projectiles gOneHit 16 (fun _ => (0, 0))).stateOf.p1.hp =
      gOneHit.p1.hp - arrowOnP1.dmg := by
  refine ⟨(C7_archer_behaviour.1 skeletonKind 100 100).1.mpr (by decide), ?_, ?_⟩
  · exact (C7_archer_behaviour.2.1 gameInit (mkMob skeletonKind 600 320) 1000
      (Frac.ofInt 1, Frac.ofInt 0)).1 (by decide) (by decide) (by decide)
      (by decide) (by decide)
  · exact (C7_archer_behaviour.2.2 gOneHit 16 (fun _ => (0, 0)) [] [] arrowOnP1
      rfl (by simp) rfl (by decide) (by decide) (by decide) (by simp)).2

/-- Counterexample to C7 as stated: two arrows strike the player in the
same frame; both deal their 12 damage (hp 100 → 76) but the second is not
removed — the stale pop index raises IndexError and the dead arrow stays
in the projectile list. -/
theorem C7_archer_behaviour_cex :
    (update_projectiles gTwoHits 16 (fun _ => (0, 0))).isErr = true ∧
    (update_projectiles gTwoHits 16 (fun _ => (0, 0))).stateOf.p1.hp = 76 ∧
    (update_projectiles gTwoHits 16 (fun _ => (0, 0))).stateOf.projectiles.map
      (fun a => a.alive) = [false] := by
  decide

/-- C9: `Game.update_projectiles` pops stale snapshot indices; with two
arrows dying in the same frame (both flown off screen here) the second
`pop` is out of range — the call raises IndexError and the second dead
arrow survives in `Game.projectiles` instead of being removed. -/
theorem C9_projectiles_indexerror :
    (update_projectiles gTwoDead 16 (fun _ => (0, 0))).isErr = true ∧
    (update_projectiles gTwoDead 16 (fun _ => (0, 0))).stateOf.projectiles.length = 1 ∧
    (update_projectiles gTwoDead 16 (fun _ => (0, 0))).stateOf.projectiles.map
      (fun a => a.alive) = [false] := by
  decide

/-- `Player.move` never touches hp, life, or max hp. -/
theorem Player.move_frame (p : Player) (disp : Int × Int) :
    (Player.move p disp).hp = p.hp ∧ (Player.move p disp).alive = p.alive ∧
    (Player.move p disp).max_hp = p.max_hp := by
  unfold Player.move
  split
  · exact ⟨rfl, rfl, rfl⟩
  · exact ⟨rfl, rfl, rfl⟩

/-- Without a pending theme change, `_handle_theme_transitions` is the
identity. -/
theorem handle_theme_transitions_id (g : GameState) (h : g.theme = g.prev_theme) :
    handle_theme_transitions g = g := by
  simp [handle_theme_transitions, h]

/-- Touching neither portal leaves the state unchanged. -/
theorem portalsPhase_id (g : GameState)
    (h1 : g.p1.rect.collide portal_n = false)
    (h2 : g.p1.rect.collide portal_e = false) :
    portalsPhase g = g := by
  simp [portalsPhase, h1, h2]

/-- The effective spawn interval only reads theme and base interval. -/
theorem adjustedInterval_congr (g2 g : GameState) (h1 : g2.theme = g.theme)
    (h2 : g2.spawn_interval_ms = g.spawn_interval_ms) :
    adjustedInterval g2 = adjustedInterval g := by
  unfold adjustedInterval
  rw [h1, h2]

/-- With both spawn timers still below their intervals, the spawn section
only advances the timers. -/
theorem spawnsPhase_gated (g : GameState) (dt : Int) (o : FrameOracle)
    (h1 : ¬ adjustedInterval g ≤ g.spawn_timer + dt)
    (h2 : ¬ g.animal_spawn_interval_ms ≤ g.animal_spawn_timer + dt) :
    spawnsPhase g dt o =
      { g with
          spawn_timer := g.spawn_timer + dt
          animal_spawn_timer := g.animal_spawn_timer + dt } := by
  simp only [spawnsPhase]
  rw [adjustedInterval_congr { g with spawn_timer := g.spawn_timer + dt } g rfl rfl]
  simp only [eq_false h1, eq_false h2, if_false]

/-- The mob-AI loop over dead mobs rebuilds the list and changes nothing
else. -/
theorem mobsPhase_fold_dead (now : Int) (o : FrameOracle) :
    ∀ (snap : List (Nat × Mob)) (st : GameState × List Mob),
      (∀ e ∈ snap, e.2.alive = false) →
      snap.foldl (mobsPhaseStep now o) st = (st.1, st.2 ++ snap.map (fun e => e.2)) := by
  intro snap
  induction snap with
  | nil => intro st _; simp
  | cons e rest ih =>
    intro st h
    have he : e.2.alive = false := h e (List.mem_cons_self _ _)
    simp only [List.foldl_cons, List.map_cons]
    rw [show mobsPhaseStep now o st e = (st.1, st.2 ++ [e.2]) from by
      simp [mobsPhaseStep, he]]
    rw [ih _ (fun x hx => h x (List.mem_cons_of_mem _ hx))]
    simp

/-- With no live mob, the whole mob-AI section is the identity. -/
theorem mobsPhase_dead (g : GameState) (now : Int) (o : FrameOracle)
    (h : ∀ m ∈ g.mobs, m.alive = false) :
    mobsPhase g now o = g := by
  unfold mobsPhase
  rw [mobsPhase_fold_dead now o (enumFrom 0 g.mobs) (g, [])
    (fun e he => h e.2 (enumFrom_snd_mem _ _ _ he))]
  simp [enumFrom_map_snd]

/-- Damaging an animal never changes its kind. -/
theorem apply_damage_animal_kind (a : Animal) (dmg : Int) (kb : Int × Int) :
    (apply_damage_animal a dmg kb).kind = a.kind := by
  unfold apply_damage_animal
  split
  · rfl
  · dsimp only
    split <;> rfl

/-- Animals coming out of the melee loop keep the kinds of the incoming
animals. -/
theorem meleeAnimal_kinds (p : Player) (kbA : Nat → Int × Int) :
    ∀ (snap : List (Nat × Animal)) (acc : MeleeAnimalAcc),
      ∀ a' ∈ (snap.foldl (meleeAnimalStep p kbA) acc).animals,
        a' ∈ acc.animals ∨ ∃ e ∈ snap, a'.kind = e.2.kind := by
  intro snap
  induction snap with
  | nil => intro acc a' h; exact Or.inl h
  | cons ja rest ih =>
    intro acc a' h
    simp only [List.foldl_cons] at h
    rcases ih _ a' h with hmem | ⟨e, he, hk⟩
    · by_cases h1 : (ja.2.alive && meleeHit p ja.2.rect) = true
      · by_cases h2 : (apply_damage_animal ja.2 p.weapon.dmg (kbA ja.1)).alive = false
        · rw [show (meleeAnimalStep p kbA acc ja).animals =
              acc.animals ++ [apply_damage_animal ja.2 p.weapon.dmg (kbA ja.1)] from by
            simp [meleeAnimalStep, h1, h2]] at hmem
          rcases List.mem_append.mp hmem with h3 | h3
          · exact Or.inl h3
          · simp only [List.mem_singleton] at h3
            subst h3
            exact Or.inr ⟨ja, List.mem_cons_self _ _, apply_damage_animal_kind _ _ _⟩
        · rw [show (meleeAnimalStep p kbA acc ja).animals =
              acc.animals ++ [apply_damage_animal ja.2 p.weapon.dmg (kbA ja.1)] from by
            simp [meleeAnimalStep, h1, h2]] at hmem
          rcases List.mem_append.mp hmem with h3 | h3
          · exact Or.inl h3
          · simp only [List.mem_singleton] at h3
            subst h3
            exact Or.inr ⟨ja, List.mem_cons_self _ _, apply_damage_animal_kind _ _ _⟩
      · rw [show (meleeAnimalStep p kbA acc ja).animals = acc.animals ++ [ja.2] from by
          simp [meleeAnimalStep, h1]] at hmem
        rcases List.mem_append.mp hmem with h3 | h3
        · exact Or.inl h3
        · simp only [List.mem_singleton] at h3
          subst h3
          exact Or.inr ⟨ja, List.mem_cons_self _ _, rfl⟩
    · exact Or.inr ⟨e, List.mem_cons_of_mem _ he, hk⟩

/-- `hunter_melee` never touches the player's hp, life, max hp or rect
(it only rearms the attack timestamp, slash state and score). -/
theorem hunter_melee_p1_frame (g : GameState) (now : Int)
    (kbM kbA : Nat → Int × Int) (roll : Nat → Frac) :
    (hunter_melee g now kbM kbA roll).p1.hp = g.p1.hp ∧
    (hunter_melee g now kbM kbA roll).p1.alive = g.p1.alive ∧
    (hunter_melee g now kbM kbA roll).p1.max_hp = g.p1.max_hp ∧
    (hunter_melee g now kbM kbA roll).p1.rect = g.p1.rect := by
  unfold hunter_melee
  split
  · exact ⟨rfl, rfl, rfl, rfl⟩
  · split
    · exact ⟨rfl, rfl, rfl, rfl⟩
    · exact ⟨rfl, rfl, rfl, rfl⟩

/-- `hunter_melee` leaves the round flag, projectiles, theme and all
timers untouched. -/
theorem hunter_melee_misc_frame (g : GameState) (now : Int)
    (kbM kbA : Nat → Int × Int) (roll : Nat → Frac) :
    (hunter_melee g now kbM kbA roll).round_over = g.round_over ∧
    (hunter_melee g now kbM kbA roll).projectiles = g.projectiles ∧
    (hunter_melee g now kbM kbA roll).theme = g.theme ∧
    (hunter_melee g now kbM kbA roll).prev_theme = g.prev_theme ∧
    (hunter_melee g now kbM kbA roll).spawn_timer = g.spawn_timer ∧
    (hunter_melee g now kbM kbA roll).spawn_interval_ms = g.spawn_interval_ms ∧
    (hunter_melee g now kbM kbA roll).animal_spawn_timer = g.animal_spawn_timer ∧
    (hunter_melee g now kbM kbA roll).animal_spawn_interval_ms = g.animal_spawn_interval_ms ∧
    (hunter_melee g now kbM kbA roll).paused = g.paused := by
  unfold hunter_melee
  split
  · exact ⟨rfl, rfl, rfl, rfl, rfl, rfl, rfl, rfl, rfl⟩
  · split
    · exact ⟨rfl, rfl, rfl, rfl, rfl, rfl, rfl, rfl, rfl⟩
    · exact ⟨rfl, rfl, rfl, rfl, rfl, rfl, rfl, rfl, rfl⟩

/-- With no live mob, `hunter_melee` leaves the mob list unchanged. -/
theorem hunter_melee_mobs_dead (g : GameState) (now : Int)
    (kbM kbA : Nat → Int × Int) (roll : Nat → Frac)
    (h : ∀ m ∈ g.mobs, m.alive = false) :
    (hunter_melee g now kbM kbA roll).mobs = g.mobs := by
  have hfold : ∀ (snap : List (Nat × Mob)) (acc : MeleeMobAcc),
      (∀ e ∈ snap, e.2.alive = false) →
      (snap.foldl (meleeMobStep g.p1 kbM roll) acc).mobs = acc.mobs ++ snap.map (fun e => e.2) := by
    intro snap
    induction snap with
    | nil => intro acc _; simp
    | cons e rest ih =>
      intro acc hd
      have he : e.2.alive = false := hd e (List.mem_cons_self _ _)
      simp only [List.foldl_cons, List.map_cons]
      rw [show meleeMobStep g.p1 kbM roll acc e = { acc with mobs := acc.mobs ++ [e.2] } from by
        simp [meleeMobStep, he]]
      rw [ih _ (fun x hx => hd x (List.mem_cons_of_mem _ hx))]
      simp
  unfold hunter_melee
  split
  · rfl
  · split
    · rfl
    · dsimp only
      rw [hfold (enumFrom 0 g.mobs) _ (fun e he => h e.2 (enumFrom_snd_mem _ _ _ he))]
      simp [enumFrom_map_snd]

/-- Every health pack present after `hunter_melee` is either an old pack
or carries the heal amount of one of the incoming animals. -/
theorem hunter_melee_packs_bound (g : GameState) (now : Int)
    (kbM kbA : Nat → Int × Int) (roll : Nat → Frac) :
    ∀ pk ∈ (hunter_melee g now kbM kbA roll).health_packs,
      pk ∈ g.health_packs ∨ ∃ a ∈ g.animals, pk.2 = a.kind.heal_amount := by
  intro pk hpk
  revert hpk
  unfold hunter_melee
  split
  · intro hpk; exact Or.inl hpk
  · split
    · intro hpk; exact Or.inl hpk
    · dsimp only
      rw [meleeAnimal_packs g.p1 kbA (enumFrom 0 g.animals) ⟨[], []⟩]
      intro hpk
      rcases List.mem_append.mp hpk with h | h
      · exact Or.inl h
      · right
        simp only [List.nil_append] at h
        obtain ⟨e, he, hsome⟩ := List.mem_filterMap.mp h
        refine ⟨e.2, enumFrom_snd_mem _ _ _ he, ?_⟩
        unfold animalPackOf at hsome
        split at hsome
        · dsimp only at hsome
          split at hsome
          · cases hsome
            rfl
          · cases hsome
        · cases hsome

/-- Every animal present after `hunter_melee` has the kind of one of the
incoming animals. -/
theorem hunter_melee_animals_kinds (g : GameState) (now : Int)
    (kbM kbA : Nat → Int × Int) (roll : Nat → Frac) :
    ∀ a' ∈ (hunter_melee g now kbM kbA roll).animals,
      ∃ a ∈ g.animals, a'.kind = a.kind := by
  intro a' ha'
  revert ha'
  unfold hunter_melee
  split
  · intro ha'; exact ⟨a', ha', rfl⟩
  · split
    · intro ha'; exact ⟨a', ha', rfl⟩
    · dsimp only
      intro ha'
      rcases meleeAnimal_kinds g.p1 kbA (enumFrom 0 g.animals) ⟨[], []⟩ a' ha' with h | ⟨e, he, hk⟩
      · simp at h
      · exact ⟨e.2, enumFrom_snd_mem _ _ _ he, hk⟩

/-- The weapon-drop scan only ever rewrites the player's weapon. -/
theorem popLoop_weapon_frame (p : (Rect × Weapon) → Bool) :
    ∀ (snap : List (Nat × (Rect × Weapon))) (cur : List (Rect × Weapon)) (w : Player),
      (popLoop p (fun d w => { w with weapon := d.2 }) snap cur w).stateOf.1.hp = w.hp ∧
      (popLoop p (fun d w => { w with weapon := d.2 }) snap cur w).stateOf.1.alive = w.alive ∧
      (popLoop p (fun d w => { w with weapon := d.2 }) snap cur w).stateOf.1.max_hp = w.max_hp := by
  intro snap
  induction snap with
  | nil => intro cur w; exact ⟨rfl, rfl, rfl⟩
  | cons e rest ih =>
    intro cur w
    by_cases hb : p e.2 = true
    · simp only [popLoop, hb, if_true]
      cases hpop : popIdx cur e.1 with
      | none => exact ⟨rfl, rfl, rfl⟩
      | some c => exact ih c.2 _
    · have hb2 : p e.2 = false := by revert hb; cases p e.2 <;> simp
      simp only [popLoop, hb2, Bool.false_eq_true, if_false]
      exact ih cur w

/-- Frame of the weapon-drop scan on the whole loop, ordinary or raising
outcome alike. -/
theorem weapon_drops_loop_frame (drops : List (Rect × Weapon)) (p : Player) :
    (weapon_drops_loop drops p).stateOf.1.hp = p.hp ∧
    (weapon_drops_loop drops p).stateOf.1.alive = p.alive ∧
    (weapon_drops_loop drops p).stateOf.1.max_hp = p.max_hp := by
  unfold weapon_drops_loop
  exact popLoop_weapon_frame _ _ _ _

/-- The health-pack scan with non-negative amounts only raises the hp of
a player whose hp respects its (non-negative) cap, and keeps both the cap
and the life flag. -/
theorem popLoop_heal_mono (p : (Rect × Int) → Bool) :
    ∀ (snap : List (Nat × (Rect × Int))) (cur : List (Rect × Int)) (w : Player),
      (∀ e ∈ snap, 0 ≤ e.2.2) → w.hp ≤ w.max_hp → 0 ≤ w.max_hp →
      w.hp ≤ (popLoop p (fun e w => { w with hp := clamp (w.hp + e.2) 0 w.max_hp })
          snap cur w).stateOf.1.hp ∧
      (popLoop p (fun e w => { w with hp := clamp (w.hp + e.2) 0 w.max_hp })
          snap cur w).stateOf.1.alive = w.alive ∧
      (popLoop p (fun e w => { w with hp := clamp (w.hp + e.2) 0 w.max_hp })
          snap cur w).stateOf.1.hp ≤
        (popLoop p (fun e w => { w with hp := clamp (w.hp + e.2) 0 w.max_hp })
          snap cur w).stateOf.1.max_hp ∧
      (popLoop p (fun e w => { w with hp := clamp (w.hp + e.2) 0 w.max_hp })
          snap cur w).stateOf.1.max_hp = w.max_hp := by
  intro snap
  induction snap with
  | nil => intro cur w _ hhp hmax; exact ⟨le_refl _, rfl, hhp, rfl⟩
  | cons e rest ih =>
    intro cur w hnn hhp hmax
    have hamt : 0 ≤ e.2.2 := hnn e (List.mem_cons_self _ _)
    have hcl : w.hp ≤ clamp (w.hp + e.2.2) 0 w.max_hp ∧
        clamp (w.hp + e.2.2) 0 w.max_hp ≤ w.max_hp := by
      unfold clamp
      omega
    by_cases hb : p e.2 = true
    · simp only [popLoop, hb, if_true]
      cases hpop : popIdx cur e.1 with
      | none => exact ⟨hcl.1, rfl, hcl.2, rfl⟩
      | some c =>
        obtain ⟨i1, i2, i3, i4⟩ := ih c.2 { w with hp := clamp (w.hp + e.2.2) 0 w.max_hp }
          (fun x hx => hnn x (List.mem_cons_of_mem _ hx)) hcl.2 hmax
        exact ⟨le_trans hcl.1 i1, i2, i3, i4⟩
    · have hb2 : p e.2 = false := by revert hb; cases p e.2 <;> simp
      simp only [popLoop, hb2, Bool.false_eq_true, if_false]
      exact ih cur w (fun x hx => hnn x (List.mem_cons_of_mem _ hx)) hhp hmax

/-- The same monotonicity, stated on `try_pick_health`. -/
theorem try_pick_health_mono (packs : List (Rect × Int)) (w : Player)
    (hpk : ∀ pk ∈ packs, 0 ≤ pk.2) (hhp : w.hp ≤ w.max_hp) (hmax : 0 ≤ w.max_hp) :
    w.hp ≤ (try_pick_health packs w).stateOf.1.hp ∧
    (try_pick_health packs w).stateOf.1.alive = w.alive ∧
    (try_pick_health packs w).stateOf.1.hp ≤ (try_pick_health packs w).stateOf.1.max_hp ∧
    (try_pick_health packs w).stateOf.1.max_hp = w.max_hp := by
  unfold try_pick_health
  exact popLoop_heal_mono _ _ _ _ (fun e he => hpk e.2 (enumFrom_snd_mem _ _ _ he)) hhp hmax

/-- With no projectiles, `update_projectiles` is the identity. -/
theorem update_projectiles_empty (g : GameState) (dt : Int) (kb : Nat → Int × Int)
    (h : g.projectiles = []) :
    update_projectiles g dt kb = PyResult.ok g := by
  simp only [update_projectiles, h, enumFrom, projLoop, List.map_nil]
  rw [show ([] : List Arrow) = g.projectiles from h.symm]

/-- The post-melee part of the frame cannot lower the player's hp, kill
the player, or end the round, in a state with no live mob, no projectile,
no portal touched, no pending theme change, both spawn timers still below
their intervals, and non-negative health-pack amounts. -/
theorem update_tail_frame (gpre : GameState) (dt : Int) (o : FrameOracle)
    (hpn : gpre.p1.rect.collide portal_n = false)
    (hpe : gpre.p1.rect.collide portal_e = false)
    (hteq : gpre.theme = gpre.prev_theme)
    (hmobs : ∀ m ∈ gpre.mobs, m.alive = false)
    (hproj : gpre.projectiles = [])
    (hgate : ¬ adjustedInterval gpre ≤ gpre.spawn_timer + dt)
    (hagate : ¬ gpre.animal_spawn_interval_ms ≤ gpre.animal_spawn_timer + dt)
    (hpacks : ∀ pk ∈ gpre.health_packs, 0 ≤ pk.2)
    (hhp : gpre.p1.hp ≤ gpre.p1.max_hp)
    (hmax : 0 ≤ gpre.p1.max_hp) :
    gpre.p1.hp ≤ (updateTail gpre dt o).stateOf.p1.hp ∧
    (updateTail gpre dt o).stateOf.p1.alive = gpre.p1.alive ∧
    (updateTail gpre dt o).stateOf.round_over = gpre.round_over := by
  unfold updateTail
  rw [portalsPhase_id gpre hpn hpe, handle_theme_transitions_id gpre hteq]
  dsimp only
  rw [spawnsPhase_gated gpre dt o hgate hagate]
  rw [mobsPhase_dead
    { gpre with
        spawn_timer := gpre.spawn_timer + dt
        animal_spawn_timer := gpre.animal_spawn_timer + dt } o.nowAi o hmobs]
  dsimp only
  obtain ⟨w1, w2, w3⟩ := weapon_drops_loop_frame gpre.weapon_drops gpre.p1
  cases hr1 : weapon_drops_loop gpre.weapon_drops gpre.p1 with
  | err s =>
    rw [hr1] at w1 w2 w3
    simp only [PyResult.stateOf] at w1 w2 w3
    exact ⟨le_of_eq w1.symm, w2, rfl⟩
  | ok s =>
    rw [hr1] at w1 w2 w3
    simp only [PyResult.stateOf] at w1 w2 w3
    dsimp only
    obtain ⟨t1, t2, t3, t4⟩ := try_pick_health_mono gpre.health_packs s.1 hpacks
      (by rw [w1, w3]; exact hhp) (by rw [w3]; exact hmax)
    cases hr2 : try_pick_health gpre.health_packs s.1 with
    | err s2 =>
      rw [hr2] at t1 t2 t3 t4
      simp only [PyResult.stateOf] at t1 t2 t3 t4
      dsimp only
      exact ⟨le_trans (le_of_eq w1.symm) t1, t2.trans w2, rfl⟩
    | ok s2 =>
      rw [hr2] at t1 t2 t3 t4
      simp only [PyResult.stateOf] at t1 t2 t3 t4
      dsimp only
      rw [update_projectiles_empty
        { gpre with
            spawn_timer := gpre.spawn_timer + dt
            animal_spawn_timer := gpre.animal_spawn_timer + dt
            p1 := s2.1
            animals := animalsPhase gpre.animals o
            weapon_drops := s.2
            health_packs := s2.2 } dt o.projKb hproj]
      exact ⟨le_trans (le_of_eq w1.symm) t1, t2.trans w2, rfl⟩

/-- C8: animals are peaceful.  In a state with no live mob, no arrow in
flight, no portal being touched, no pending theme transition and both
spawn timers below their thresholds — so that the only actors of the
frame are the player, the animals and the pickups — a full `Game.update`
never decreases the player's hp, never clears the player's `alive` flag
and never sets `round_over`, whatever the inputs and random draws;
animal AI, melee kills of animals, dropped health packs and weapon drops
all leave the player unharmed (hp can only rise, through pickups). -/
theorem C8_animals_peaceful (g : GameState) (dt : Int) (o : FrameOracle)
    (hmobs : ∀ m ∈ g.mobs, m.alive = false)
    (hproj : g.projectiles = [])
    (hpn : (Player.move g.p1 o.moveDisp).rect.collide portal_n = false)
    (hpe : (Player.move g.p1 o.moveDisp).rect.collide portal_e = false)
    (hteq : g.theme = g.prev_theme)
    (hgate : ¬ adjustedInterval g ≤ g.spawn_timer + dt)
    (hagate : ¬ g.animal_spawn_interval_ms ≤ g.animal_spawn_timer + dt)
    (hpacks : ∀ pk ∈ g.health_packs, 0 ≤ pk.2)
    (hanimals : ∀ a ∈ g.animals, 0 ≤ a.kind.heal_amount)
    (hhp : g.p1.hp ≤ g.p1.max_hp)
    (hmax : 0 ≤ g.p1.max_hp) :
    g.p1.hp ≤ (update g dt o).stateOf.p1.hp ∧
    (update g dt o).stateOf.p1.alive = g.p1.alive ∧
    (update g dt o).stateOf.round_over = g.round_over := by
  unfold update
  by_cases hpr : (g.paused || g.round_over) = true
  · rw [if_pos hpr]
    exact ⟨le_refl _, rfl, rfl⟩
  · rw [if_neg hpr]
    dsimp only
    obtain ⟨m1, m2, m3⟩ := Player.move_frame g.p1 o.moveDisp
    have hbundle : ∀ g2 : GameState,
        g2.p1.hp = g.p1.hp → g2.p1.alive = g.p1.alive → g2.p1.max_hp = g.p1.max_hp →
        g2.p1.rect = (Player.move g.p1 o.moveDisp).rect →
        g2.round_over = g.round_over →
        g2.projectiles = g.projectiles →
        g2.theme = g.theme → g2.prev_theme = g.prev_theme →
        g2.spawn_timer = g.spawn_timer →
        g2.spawn_interval_ms = g.spawn_interval_ms →
        g2.animal_spawn_timer = g.animal_spawn_timer →
        g2.animal_spawn_interval_ms = g.animal_spawn_interval_ms →
        (∀ m ∈ g2.mobs, m.alive = false) →
        (∀ pk ∈ g2.health_packs, 0 ≤ pk.2) →
        g.p1.hp ≤ (updateTail g2 dt o).stateOf.p1.hp ∧
        (updateTail g2 dt o).stateOf.p1.alive = g.p1.alive ∧
        (updateTail g2 dt o).stateOf.round_over = g.round_over := by
      intro g2 e1 e2 e3 e4 e5 e6 e7 e8 e9 e10 e11 e12 e13 e14
      obtain ⟨r1, r2, r3⟩ := update_tail_frame g2 dt o
        (by rw [e4]; exact hpn) (by rw [e4]; exact hpe)
        (by rw [e7, e8]; exact hteq) e13 (by rw [e6]; exact hproj)
        (by rw [adjustedInterval_congr g2 g e7 e10, e9]; exact hgate)
        (by rw [e11, e12]; exact hagate) e14
        (by rw [e1, e3]; exact hhp) (by rw [e3]; exact hmax)
      exact ⟨by rw [← e1]; exact r1, by rw [r2, e2], by rw [r3, e5]⟩
    by_cases hat : o.attackInput = true
    · rw [if_pos hat]
      obtain ⟨a1, a2, a3, a4⟩ := hunter_melee_p1_frame
        { g with p1 := Player.move g.p1 o.moveDisp } o.nowAttack o.meleeKbMob
        o.meleeKbAnimal o.dropRoll
      obtain ⟨b1, b2, b3, b4, b5, b6, b7, b8, b9⟩ := hunter_melee_misc_frame
        { g with p1 := Player.move g.p1 o.moveDisp } o.nowAttack o.meleeKbMob
        o.meleeKbAnimal o.dropRoll
      refine hbundle _ (a1.trans m1) (a2.trans m2) (a3.trans m3) a4 b1 b2 b3 b4 b5 b6 b7 b8
        ?_ ?_
      · rw [hunter_melee_mobs_dead { g with p1 := Player.move g.p1 o.moveDisp }
          o.nowAttack o.meleeKbMob o.meleeKbAnimal o.dropRoll hmobs]
        exact hmobs
      · intro pk hpk
        rcases hunter_melee_packs_bound { g with p1 := Player.move g.p1 o.moveDisp }
          o.nowAttack o.meleeKbMob o.meleeKbAnimal o.dropRoll pk hpk with h | ⟨a, ha, hpk2⟩
        · exact hpacks pk h
        · rw [hpk2]
          exact hanimals a ha
    · rw [if_neg hat]
      exact hbundle _ m1 m2 m3 rfl rfl rfl rfl rfl rfl rfl rfl rfl hmobs hpacks

/-- Witness for C8 at a concrete state holding only a dead zombie, a
chicken and a stray pack. -/
theorem C8_animals_peaceful_witness :
    gPeaceful.p1.hp ≤ (update gPeaceful 16 oracle0).stateOf.p1.hp ∧
    (update gPeaceful 16 oracle0).stateOf.p1.alive = gPeaceful.p1.alive ∧
    (update gPeaceful 16 oracle0).stateOf.round_over = gPeaceful.round_over :=
  C8_animals_peaceful gPeaceful 16 oracle0 (by decide) (by decide) (by decide)
    (by decide) (by decide) (by decide) (by decide) (by decide) (by decide)
    (by decide) (by decide)

end MobHunter
